import Mathlib

/-!
A verification development for the Keyword Platform repository's frontend
(Angular / TypeScript).  Every definition below is a shallow embedding of a
function or component of the repository's source; the `C*` theorems settle
the frozen claims about that source.  JavaScript arrays become `List`,
strings become `String`, `undefined`/absent values become `Option`, and
object mutation becomes explicit state passing.
-/

namespace KeywordPlatform

/-- JavaScript's `Array.prototype.filter` when the callback also reads the
element's index: `i` is the index (in the original array) of the head of the
remaining list. -/
def filterWithIndex (p : String → Nat → Bool) : List String → Nat → List String
  | [], _ => []
  | x :: xs, i =>
      if p x i then x :: filterWithIndex p xs (i + 1) else filterWithIndex p xs (i + 1)

/-- From `shared/utils.ts`: `flattenAndFilter(arrays)` flattens `arrays` and
keeps a value exactly when the callback `array.indexOf(value) === index`
holds, `array` being the flattened array. -/
def flattenAndFilter (arrays : List (List String)) : List String :=
  let flat := arrays.flatten
  filterWithIndex (fun value index => flat.indexOf value == index) flat 0

/-- The claim's words: concatenate and remove duplicates, keeping the first
occurrence of each value. -/
def keepFirsts : List String → List String
  | [] => []
  | x :: xs => x :: keepFirsts (xs.filter (fun y => y != x))
termination_by l => l.length
decreasing_by
  simp only [List.length_cons]
  exact Nat.lt_succ_of_le (List.length_filter_le _ _)

/-- `enum Worker` — workers to run. -/
inductive Worker
  | TRANSLATION_WORKER
deriving DecidableEq

/-- The TypeScript string value of each `Worker` member. -/
def Worker.value : Worker → String
  | .TRANSLATION_WORKER => "translationWorker"

/-- `enum RequestStatus` — status of api/service requests. -/
inductive RequestStatus
  | NONE
  | REQUESTED
  | RESPONDED
  | ERROR
deriving DecidableEq

/-- The TypeScript string value of each `RequestStatus` member. -/
def RequestStatus.value : RequestStatus → String
  | .NONE => "None"
  | .REQUESTED => "Requested"
  | .RESPONDED => "Responded"
  | .ERROR => "Error"

/-- `enum FontIcon` — font icon names. -/
inductive FontIcon
  | ERROR
  | PRIORITY
deriving DecidableEq

/-- The TypeScript string value of each `FontIcon` member. -/
def FontIcon.value : FontIcon → String
  | .ERROR => "error"
  | .PRIORITY => "priority_high"

/-- `interface Translation`, as produced by
`TranslationComponent.getTranslationData` (which also supplies
`translateExtensions`). -/
structure Translation where
  sourceLanguageCode : String
  targetLanguageCode : String
  glossaryId : String
  translateKeywords : Bool
  translateAds : Bool
  translateExtensions : Bool
  shortenTranslationsToCharLimit : Bool
deriving DecidableEq

/-- `interface Output` — the body of a successful run response; the dialog
reads its `asset_urls` member, a map from file type to a list of URLs,
modelled as an association list. -/
structure Output where
  asset_urls : List (String × List String)
deriving DecidableEq

/-- One value of the run request's key/value object.  All values are strings
except `workers_to_run`: `RunService.run` assigns the workers array itself
(its `workers` parameter is annotated `string` but every caller passes the
array unjoined). -/
inductive ParamValue
  | str (s : String)
  | strList (l : List String)
deriving DecidableEq

/-- The key/value object built by `RunService.run` and handed to
`getRequestMethod`.  `Array.prototype.join(',')` is `String.intercalate ","`;
JavaScript's `Boolean.prototype.toString` and Lean's `Bool.toString` agree. -/
def RunService.runValues (accountIds campaignIds : List String)
    (sourceLanguageCode targetLanguageCode : String)
    (shortenTranslationsToCharLimit translateKeywords translateAds translateExtensions : Bool)
    (glossaryId : String) (workers : List String) (client_id : String) :
    List (String × ParamValue) :=
  [("customer_ids", .str (String.intercalate "," accountIds)),
   ("campaigns", .str (String.intercalate "," campaignIds)),
   ("source_language_code", .str sourceLanguageCode),
   ("target_language_codes", .str targetLanguageCode),
   ("shorten_translations_to_char_limit", .str (toString shortenTranslationsToCharLimit)),
   ("translate_keywords", .str (toString translateKeywords)),
   ("translate_ads", .str (toString translateAds)),
   ("translate_extensions", .str (toString translateExtensions)),
   ("glossary_id", .str glossaryId),
   ("workers_to_run", .strList workers),
   ("client_id", .str client_id),
   ("endpoint", .str "run")]

/-- Angular's `HttpErrorResponse`, reduced to the members the services
touch. -/
structure HttpErrorResponse where
  status : Nat
  statusText : String
  url : String
  message : String
  errorBody : String
deriving DecidableEq

/-- `RunService.handleError`: `throwError(error.message)` — only the message
string survives. -/
def RunService.handleError (error : HttpErrorResponse) : String :=
  error.message

/-- `GoogleAdsService.handleError` (`google-ads.service.ts`). -/
def GoogleAdsService.handleError (error : HttpErrorResponse) : String :=
  error.message

/-- `TranslationService.handleError` (`src/unnamed/part_014`). -/
def TranslationService.handleError (error : HttpErrorResponse) : String :=
  error.message

/-- HTTP request methods used by the services. -/
inductive HttpMethod
  | get
  | post
deriving DecidableEq

/-- An outgoing request as the services build it: a method, a path, query
parameters (GET) or a JSON body (POST). -/
structure HttpRequest where
  method : HttpMethod
  path : String
  queryParams : Option (List (String × ParamValue))
  body : Option (List (String × ParamValue))
deriving DecidableEq

/-- `RunService.getPathname`: `./test-api/<api>.json` on localhost,
`./proxy` otherwise. -/
def RunService.getPathname (hostname api : String) : String :=
  if hostname == "localhost" then "./test-api/" ++ api ++ ".json" else "./proxy"

/-- `RunService.getRequestMethod`: a GET with the values as query parameters
on localhost, a POST of the values otherwise. -/
def RunService.getRequestMethod (hostname api : String)
    (values : List (String × ParamValue)) : HttpRequest :=
  let pathname := RunService.getPathname hostname api
  if hostname == "localhost" then
    { method := .get, path := pathname, queryParams := some values, body := none }
  else
    { method := .post, path := pathname, queryParams := none, body := some values }

/-- `GoogleAdsService.getPathname` — same logic as the run service's. -/
def GoogleAdsService.getPathname (hostname api : String) : String :=
  if hostname == "localhost" then "./test-api/" ++ api ++ ".json" else "./proxy"

/-- `GoogleAdsService.getRequestMethod` — same logic as the run service's. -/
def GoogleAdsService.getRequestMethod (hostname api : String)
    (values : List (String × ParamValue)) : HttpRequest :=
  let pathname := GoogleAdsService.getPathname hostname api
  if hostname == "localhost" then
    { method := .get, path := pathname, queryParams := some values, body := none }
  else
    { method := .post, path := pathname, queryParams := none, body := some values }

/-- `GoogleAdsService.getAccounts`: always an `http.get` of
`getPathname('accessible_accounts')` with the single query parameter
`endpoint`, not routed through `getRequestMethod`. -/
def GoogleAdsService.getAccounts (hostname : String) : HttpRequest :=
  { method := .get,
    path := GoogleAdsService.getPathname hostname "accessible_accounts",
    queryParams := some [("endpoint", .str "accessible_accounts")],
    body := none }

/-- `GoogleAdsService.getCampaigns`: routed through `getRequestMethod` with
the selected accounts joined by commas. -/
def GoogleAdsService.getCampaigns (hostname : String) (accountIds : List String) : HttpRequest :=
  GoogleAdsService.getRequestMethod hostname "campaigns"
    [("selected_accounts", .str (String.intercalate "," accountIds)),
     ("endpoint", .str "campaigns")]

/-- `TranslationService.getHost` (`src/unnamed/part_014`) — same hostname
test as the other services. -/
def TranslationService.getHost (hostname api : String) : String :=
  if hostname == "localhost" then "./test-api/" ++ api ++ ".json" else "./proxy"

/-- `TranslationService.getGlossaries`: always an `http.get` of
`getHost('list_glossaries')` with the single query parameter `endpoint`. -/
def TranslationService.getGlossaries (hostname : String) : HttpRequest :=
  { method := .get,
    path := TranslationService.getHost hostname "list_glossaries",
    queryParams := some [("endpoint", .str "list_glossaries")],
    body := none }

/-- The fields of `ContentComponent` the run flow reads and writes.  The
`undefined` initial value of the two ID lists is modelled as `[]`.  The four
`*Disabled` fields model the disabled state `ContentComponent.disable`
drives into the translation component, every accounts component, every
campaigns component and every tab (the source also fetches the run button
there but never writes to it).  `snackbarMessage` holds the open snackbar's
`(message, fontIcon)` data, `openedDialog` the data of the dialog opened on
success. -/
structure ContentState where
  translationAccountIds : List String
  translationCampaignIds : List String
  translationAccountsHasValidationError : Bool
  translationCampaignsHasValidationError : Bool
  translationHasValidationError : Bool
  requestStatus : RequestStatus
  translationComponentDisabled : Bool
  accountsComponentsDisabled : Bool
  campaignsComponentsDisabled : Bool
  tabsDisabled : Bool
  snackbarMessage : Option (String × String)
  openedDialog : Option Output
deriving DecidableEq

/-- `ContentComponent.hasTranslationError`. -/
def ContentComponent.hasTranslationError (s : ContentState) : Bool :=
  s.translationHasValidationError || s.translationAccountsHasValidationError
    || s.translationCampaignsHasValidationError

/-- `ContentComponent.isRunRequestedStatus`. -/
def ContentComponent.isRunRequestedStatus (s : ContentState) : Bool :=
  s.requestStatus == RequestStatus.REQUESTED

/-- `ContentComponent.disable`. -/
def ContentComponent.disable (s : ContentState) (isDisabled : Bool) : ContentState :=
  { s with
    translationComponentDisabled := isDisabled,
    accountsComponentsDisabled := isDisabled,
    campaignsComponentsDisabled := isDisabled,
    tabsDisabled := isDisabled }

/-- What `ContentComponent.run` has done by the time the request is issued:
the component state and the key/value object given to `RunService.run`. -/
structure RunSubmission where
  state : ContentState
  request : List (String × ParamValue)
deriving DecidableEq

/-- `ContentComponent.run`, up to the point the request is issued.
`translationData` is what `this.translationComponent.getTranslationData()`
would return; it is only read when the translation tab has no validation
error, exactly as in the source (`translationData` stays `undefined`
otherwise and every ternary falls back to its default). -/
def ContentComponent.run (s : ContentState) (translationData : Translation)
    (clientId : String) : RunSubmission :=
  let s := { s with snackbarMessage := none }
  let s := { s with requestStatus := RequestStatus.REQUESTED }
  let accountIds : List (List String) :=
    if ContentComponent.hasTranslationError s then [] else [s.translationAccountIds]
  let campaignIds : List (List String) :=
    if ContentComponent.hasTranslationError s then [] else [s.translationCampaignIds]
  let td : Option Translation :=
    if ContentComponent.hasTranslationError s then none else some translationData
  let workers : List Worker :=
    if ContentComponent.hasTranslationError s then [] else [Worker.TRANSLATION_WORKER]
  let s := ContentComponent.disable s true
  { state := s,
    request :=
      RunService.runValues (flattenAndFilter accountIds) (flattenAndFilter campaignIds)
        (match td with | some t => t.sourceLanguageCode | none => "")
        (match td with | some t => t.targetLanguageCode | none => "")
        (match td with | some t => t.shortenTranslationsToCharLimit | none => false)
        (match td with | some t => t.translateKeywords | none => false)
        (match td with | some t => t.translateAds | none => false)
        (match td with | some t => t.translateExtensions | none => false)
        (match td with | some t => t.glossaryId | none => "")
        (workers.map Worker.value) clientId }

/-- The success callback of `ContentComponent.run`'s subscription. -/
def ContentComponent.onRunSuccess (s : ContentState) (responseBody : Output) : ContentState :=
  let s := { s with requestStatus := RequestStatus.RESPONDED }
  let s := ContentComponent.disable s false
  { s with openedDialog := some responseBody }

/-- The error callback of `ContentComponent.run`'s subscription. -/
def ContentComponent.onRunError (s : ContentState) (error : String) : ContentState :=
  let s := { s with requestStatus := RequestStatus.ERROR }
  let s := ContentComponent.disable s false
  { s with snackbarMessage := some (error, FontIcon.value FontIcon.ERROR) }

/-- The `workers_to_run` entry of a submission's request. -/
def RunSubmission.workersToRun (r : RunSubmission) : List String :=
  match r.request.lookup "workers_to_run" with
  | some (.strList l) => l
  | _ => []

/-- `enum ControlName` (`models/enums.ts`). -/
inductive ControlName
  | ACCOUNTS
  | CAMPAIGNS
  | SOURCE_LANGUAGE
  | TARGET_LANGUAGE
  | GLOSSARY
deriving DecidableEq

/-- The TypeScript string value of each `ControlName` member. -/
def ControlName.value : ControlName → String
  | .ACCOUNTS => "accounts"
  | .CAMPAIGNS => "campaigns"
  | .SOURCE_LANGUAGE => "source-language"
  | .TARGET_LANGUAGE => "target-language"
  | .GLOSSARY => "glossary"

/-- The `{sameLanguage: {value}}` validation error object. -/
structure SameLanguageError where
  value : String
deriving DecidableEq

/-- JavaScript falsiness of a possibly-undefined string: `undefined`, `null`
and the empty string are falsy. -/
def jsFalsyStr : Option String → Bool
  | none => true
  | some s => s == ""

/-- The `language` local of both validators: the code of the opposite
control — the target code when validating the source-language control, the
source code otherwise. -/
def oppositeLanguageCode (controlName : String)
    (sourceLanguageCode targetLanguageCode : Option String) : Option String :=
  if controlName == ControlName.value .SOURCE_LANGUAGE then targetLanguageCode
  else sourceLanguageCode

/-- The body of the validator closure shared verbatim by
`TranslationComponent.isSameLanguageValidator` and
`FormComponent.isSameLanguageValidator`: null when either code is falsy,
the `{sameLanguage: {value}}` error when the codes are strictly equal,
null otherwise. -/
def sameLanguageCheck (language value : Option String) : Option SameLanguageError :=
  if jsFalsyStr language || jsFalsyStr value then none
  else if value == language then some ⟨value.getD ""⟩ else none

/-- `TranslationComponent.isSameLanguageValidator`: the validator produced
for the control named `controlName`.  `sourceLanguageCode` and
`targetLanguageCode` are the component's stored codes, `controlValueCode`
is `control.value?.['code']`. -/
def TranslationComponent.isSameLanguageValidator (controlName : String)
    (sourceLanguageCode targetLanguageCode : Option String)
    (controlValueCode : Option String) : Option SameLanguageError :=
  sameLanguageCheck (oppositeLanguageCode controlName sourceLanguageCode targetLanguageCode)
    controlValueCode

/-- `FormComponent.isSameLanguageValidator` — the older generation's
identical validator (its `LanguageControl.SOURCE_LANGUAGE` member has the
same string value `source-language`). -/
def FormComponent.isSameLanguageValidator (languageControl : String)
    (sourceLanguageCode targetLanguageCode : Option String)
    (controlValueCode : Option String) : Option SameLanguageError :=
  sameLanguageCheck (oppositeLanguageCode languageControl sourceLanguageCode targetLanguageCode)
    controlValueCode

/-- `enum ResponseStatus` (`src/unnamed/part_021`). -/
inductive ResponseStatus
  | SUCCESS
  | SERVER_ERROR
deriving DecidableEq

/-- The TypeScript numeric value of each `ResponseStatus` member. -/
def ResponseStatus.value : ResponseStatus → Int
  | .SUCCESS => 200
  | .SERVER_ERROR => 500

/-- `enum ResponseMessage` (`src/unnamed/part_021`). -/
inductive ResponseMessage
  | SUCCESS
  | SERVER_ERROR
  | UNKNOWN_ERROR
deriving DecidableEq

/-- The TypeScript string value of each `ResponseMessage` member. -/
def ResponseMessage.value : ResponseMessage → String
  | .SUCCESS => "Success."
  | .SERVER_ERROR => "Failed to process request. A developer can check the logs for details."
  | .UNKNOWN_ERROR => "Unknown error. A developer can check the logs for details."

/-- The `DialogComponent` fields set by `ngOnInit` (all start
`undefined`). -/
structure DialogState where
  assetUrls : Option (List (String × List String))
  message : Option String
  status : Option Int
deriving DecidableEq

/-- `DialogComponent.ngOnInit`: a switch on `data['status']` (a number or
absent).  `SUCCESS` stores the response body's `asset_urls`; `SERVER_ERROR`
and the default store a fixed message instead. -/
def DialogComponent.ngOnInit (dataStatus : Option Int) (dataValue : Output) : DialogState :=
  if dataStatus = some (ResponseStatus.value .SUCCESS) then
    { status := some (ResponseStatus.value .SUCCESS),
      assetUrls := some dataValue.asset_urls,
      message := none }
  else if dataStatus = some (ResponseStatus.value .SERVER_ERROR) then
    { status := some (ResponseStatus.value .SERVER_ERROR),
      assetUrls := none,
      message := some (ResponseMessage.value .SERVER_ERROR) }
  else
    { status := none,
      assetUrls := none,
      message := some (ResponseMessage.value .UNKNOWN_ERROR) }

/-- The alternation `\.(?:csv|xlsx)` of the regex in `getFileNameFromUrl`,
tried at the front of `cs`: the matched extension, `csv` first. -/
def extMatch (cs : List Char) : Option (List Char) :=
  if cs.take 4 = ['.', 'c', 's', 'v'] then some ['.', 'c', 's', 'v']
  else if cs.take 5 = ['.', 'x', 'l', 's', 'x'] then some ['.', 'x', 'l', 's', 'x']
  else none

/-- The greedy `[^\/]+` with backtracking: stem lengths are tried longest
first until `\.(?:csv|xlsx)` matches right after the stem; the capture is
stem plus extension. -/
def greedyCapture (cs : List Char) : Nat → Option (List Char)
  | 0 => none
  | a + 1 =>
      match extMatch (cs.drop (a + 1)) with
      | some e => some (cs.take (a + 1) ++ e)
      | none => greedyCapture cs a

/-- The leftmost-match scan of `/\/([^\/]+\.(?:csv|xlsx))/`: a match can
only start at a `/`; at each one the greedy capture is attempted on the
rest, starting from the full slash-free run after it. -/
def scanMatch : List Char → Option (List Char)
  | [] => none
  | c :: cs =>
      if c = '/' then
        match greedyCapture cs (cs.takeWhile (fun x => x != '/')).length with
        | some cap => some cap
        | none => scanMatch cs
      else scanMatch cs

/-- `DialogComponent.getFileNameFromUrl`: the first capture of the regex
`/\/([^\/]+\.(?:csv|xlsx))/` on the URL, or the empty string when it does
not match. -/
def DialogComponent.getFileNameFromUrl (url : String) : String :=
  match scanMatch url.toList with
  | some cap => String.mk cap
  | none => ""

/-- The amended claim's description of one capture: `cap` follows a `/`,
consists of a non-empty slash-free stem and a `.csv` or `.xlsx` extension,
and is followed by the rest of the URL (so it may be a proper prefix of a
path segment). -/
def SpecCapture (cs cap : List Char) : Prop :=
  ∃ pre A e suf,
    cs = pre ++ '/' :: (A ++ e ++ suf)
    ∧ cap = A ++ e
    ∧ A ≠ []
    ∧ (∀ c ∈ A, c ≠ '/')
    ∧ (e = ['.', 'c', 's', 'v'] ∨ e = ['.', 'x', 'l', 's', 'x'])

/-- The URL contains some capture of the regex. -/
def HasCapture (cs : List Char) : Prop :=
  ∃ cap, SpecCapture cs cap

/-- The claim's notion of a name: a path segment ending in `.csv` or
`.xlsx`. -/
def endsWithCsvOrXlsx (s : List Char) : Bool :=
  ['.', 'c', 's', 'v'].isSuffixOf s || ['.', 'x', 'l', 's', 'x'].isSuffixOf s

/-- The `/`-separated segments of a URL. -/
def splitSlash : List Char → List (List Char)
  | [] => [[]]
  | c :: cs =>
      match splitSlash cs with
      | [] => [[]]
      | h :: t => if c = '/' then [] :: h :: t else (c :: h) :: t

/-! ### `src/unnamed/part_019` — `MultiSelectComponent`

JavaScript objects are modelled by an arena: every `Option` object the
component handles lives in `State.arena`, and `selectionValues` /
`selectedOptions` hold object references as arena indices, so the source's
aliasing (an individually selected option pushed into `selectedOptions` IS
the object of `selectionValues`, while `appendAllSelectedOptions` pushes
fresh copies) is preserved exactly. -/

namespace MultiSelect

/-- `Selection` data as the multi-select uses it: an `id` and a `name`.
`pseudo` is a ghost flag marking the `Select All` selection data the
component itself creates; API data never carries it and no computation
reads it. -/
structure Selection where
  id : String
  name : String
  pseudo : Bool
deriving DecidableEq, Inhabited

/-- `interface Option` of the component. -/
structure OptionR where
  selectionData : Selection
  selected : Bool
deriving DecidableEq, Inhabited

/-- The two `MatCheckbox` fields the component drives. -/
structure Checkbox where
  checked : Bool
  disabled : Bool
deriving DecidableEq, Inhabited

/-- The component's mutable state. -/
structure State where
  arena : List OptionR
  selectionValues : List Nat
  selectedOptions : List Nat
  checkboxes : List Checkbox
  hasUpdatedSelection : Bool
deriving DecidableEq

/-- `SelectAllOption.id`. -/
def selectAllOptionId : String := "0"

/-- `SelectAllOption.name`. -/
def selectAllOptionName : String := "Select All"

/-- Dereference an object address. -/
def deref (s : State) (a : Nat) : OptionR :=
  s.arena.getD a default

/-- `getAllSelectedOptions`. -/
def getAllSelectedOptions (s : State) : List OptionR :=
  s.selectedOptions.map (deref s)

/-- Allocate a new object, returning its address. -/
def alloc (s : State) (o : OptionR) : State × Nat :=
  ({ s with arena := s.arena ++ [o] }, s.arena.length)

/-- Mutate one object's `selected` field. -/
def setSelected (s : State) (a : Nat) (b : Bool) : State :=
  { s with arena := s.arena.set a { s.arena.getD a default with selected := b } }

/-- One step of `ngOnChanges`' loop: `selectionValues.push({selectionData:
value, selected: false})`. -/
def pushValue (s : State) (v : Selection) : State :=
  let (s1, a) := alloc s ⟨v, false⟩
  { s1 with selectionValues := s1.selectionValues ++ [a] }

/-- `ngOnChanges`: reset `selectionValues`; when the changed input value is
defined, prepend the `Select All` pseudo-option exactly when it has more
than one element, then append one option per value. -/
def ngOnChanges (s : State) (currentValue : Option (List Selection)) : State :=
  let s := { s with selectionValues := [] }
  match currentValue with
  | none => s
  | some vals =>
      let s :=
        if vals.length > 1 then
          let (s1, a) := alloc s ⟨⟨selectAllOptionId, selectAllOptionName, true⟩, false⟩
          { s1 with selectionValues := s1.selectionValues ++ [a] }
        else s
      vals.foldl pushValue s

/-- `removeAllSelectedOptions`. -/
def removeAllSelectedOptions (s : State) : State :=
  { s with selectedOptions := [] }

/-- `appendSelectedOption` (pushes the given object reference). -/
def appendSelectedOption (s : State) (a : Nat) : State :=
  { s with selectedOptions := s.selectedOptions ++ [a] }

/-- The loop body of `appendAllSelectedOptions`: allocate the copy
`{selectionData: value.selectionData, selected}` (the copy shares
`selectionData`, modelled by copying the immutable `Selection` value) and
push it. -/
def appendCopies (b : Bool) (t : State) (vals : List Nat) : State :=
  vals.foldl (fun t a =>
    let (t1, c) := alloc t ⟨(deref t a).selectionData, b⟩
    appendSelectedOption t1 c) t

/-- `appendAllSelectedOptions`. -/
def appendAllSelectedOptions (s : State) (selected : Bool) : State :=
  appendCopies selected s s.selectionValues

/-- `setCheckStatusForAllSelectedOptions`. -/
def setCheckStatusForAllSelectedOptions (s : State) (checked : Bool) : State :=
  { s with checkboxes := s.checkboxes.map (fun cb => { cb with checked := checked }) }

/-- `disableAllSelectedOptions`: every checkbox except the one at index 0. -/
def disableAllSelectedOptions (s : State) (disable : Bool) : State :=
  { s with checkboxes :=
      match s.checkboxes with
      | [] => []
      | c0 :: rest => c0 :: rest.map (fun cb => { cb with disabled := disable }) }

/-- `removeAndUncheckAllSelectedOptions`. -/
def removeAndUncheckAllSelectedOptions (s : State) : State :=
  let s := s.selectionValues.foldl (fun t a => setSelected t a false) s
  let s := removeAllSelectedOptions s
  setCheckStatusForAllSelectedOptions s false

/-- `getSelectedOptionIndex`: `findIndex` by `selectionData.id`, `-1` when
absent. -/
def getSelectedOptionIndex (s : State) (a : Nat) : Int :=
  match s.selectedOptions.findIdx?
      (fun x => (deref s x).selectionData.id == (deref s a).selectionData.id) with
  | some i => Int.ofNat i
  | none => -1

/-- JavaScript's `Array.prototype.splice(start, 1)`: a negative start counts
from the end (clamped at 0), one element is removed when it exists. -/
def spliceOne (l : List Nat) (i : Int) : List Nat :=
  let start := if i < 0 then ((l.length : Int) + i).toNat else i.toNat
  l.take start ++ l.drop (start + 1)

/-- `removeSelectedOption`. -/
def removeSelectedOption (s : State) (i : Int) : State :=
  { s with selectedOptions := spliceOne s.selectedOptions i }

/-- `onCheckboxChange`, given the address of the option whose checkbox was
clicked. -/
def onCheckboxChange (s : State) (a : Nat) : State :=
  let selectedOptionId := (deref s a).selectionData.id
  let s := setSelected s a (!(deref s a).selected)
  if selectedOptionId == selectAllOptionId then
    if (deref s a).selected then
      let s := removeAllSelectedOptions s
      let s := appendAllSelectedOptions s true
      let s := setCheckStatusForAllSelectedOptions s true
      let s := disableAllSelectedOptions s true
      { s with hasUpdatedSelection := true }
    else
      let s := disableAllSelectedOptions s false
      let s := removeAndUncheckAllSelectedOptions s
      let s := setSelected s a false
      { s with hasUpdatedSelection := true }
  else
    if (getAllSelectedOptions s).length == s.selectionValues.length then
      setSelected s a false
    else
      let s :=
        if (deref s a).selected then appendSelectedOption s a
        else removeSelectedOption s (getSelectedOptionIndex s a)
      { s with hasUpdatedSelection := true }

/-- `onClosed`: the new state and the emitted selection (when any). -/
def onClosed (s : State) : State × Option (List Selection) :=
  if (getAllSelectedOptions s).length > 0 ∧ s.hasUpdatedSelection = true then
    let selectionDataValue := (getAllSelectedOptions s).map (·.selectionData)
    let emitted :=
      match selectionDataValue with
      | [] => []
      | x :: rest => if x.id == selectAllOptionId then rest else x :: rest
    ({ s with hasUpdatedSelection := false }, some emitted)
  else (s, none)

/-- The `statusChanges` subscription installed by `ngOnInit`: reset all
selections when options are selected but the control reports errors. -/
def onStatusChange (s : State) (hasErrors : Bool) : State :=
  if s.selectedOptions.length > 0 ∧ hasErrors = true then
    removeAndUncheckAllSelectedOptions (disableAllSelectedOptions s false)
  else s

/-- The state right after construction (`selectionValues`,
`selectedOptions` empty, nothing updated); the checkbox row rendered by the
template is arbitrary. -/
def initState (checkboxes : List Checkbox) : State :=
  { arena := [], selectionValues := [], selectedOptions := [],
    checkboxes := checkboxes, hasUpdatedSelection := false }

/-- The states the component can reach: any sequence of input changes
(carrying real API data, which never has the ghost `pseudo` flag), checkbox
clicks, panel closings and status-change resets. -/
inductive Reachable : State → Prop
  | init (checkboxes : List Checkbox) : Reachable (initState checkboxes)
  | changes {s : State} (h : Reachable s) (currentValue : Option (List Selection))
      (hreal : ∀ vals, currentValue = some vals → ∀ v ∈ vals, v.pseudo = false) :
      Reachable (ngOnChanges s currentValue)
  | checkbox {s : State} (h : Reachable s) (a : Nat) : Reachable (onCheckboxChange s a)
  | closed {s : State} (h : Reachable s) : Reachable (onClosed s).1
  | status {s : State} (h : Reachable s) (hasErrors : Bool) :
      Reachable (onStatusChange s hasErrors)

/-- The data invariant behind C9: object references are in range, ghost
pseudo data carries id `0`, and a pseudo object can only sit at the head of
`selectionValues` and of `selectedOptions`. -/
structure Inv (s : State) : Prop where
  addrs_sel : ∀ a ∈ s.selectedOptions, a < s.arena.length
  addrs_vals : ∀ a ∈ s.selectionValues, a < s.arena.length
  pseudo_id : ∀ x : Nat,
    (deref s x).selectionData.pseudo = true → (deref s x).selectionData.id = selectAllOptionId
  vals_tail : ∀ a ∈ s.selectionValues.tail, (deref s a).selectionData.pseudo = false
  sel_tail : ∀ a ∈ s.selectedOptions.tail, (deref s a).selectionData.pseudo = false

/-- The `Select All` pseudo-option object `ngOnChanges` allocates. -/
def pseudoOption : OptionR :=
  ⟨⟨selectAllOptionId, selectAllOptionName, true⟩, false⟩

end MultiSelect

/-- A concrete reachable multi-select state for the witness: two accounts
were supplied and the first one's checkbox was clicked. -/
def c9WitnessState : MultiSelect.State :=
  MultiSelect.onCheckboxChange
    (MultiSelect.ngOnChanges (MultiSelect.initState [])
      (some [⟨"1", "Acme", false⟩, ⟨"2", "Beta", false⟩]))
    1

theorem mem_keepFirsts {a : String} {l : List String} : a ∈ keepFirsts l ↔ a ∈ l := by
  induction l using keepFirsts.induct with
  | case1 => simp [keepFirsts]
  | case2 x xs ih =>
      rw [keepFirsts]
      simp only [List.mem_cons, ih, List.mem_filter, bne_iff_ne, ne_eq]
      constructor
      · rintro (rfl | ⟨h, _⟩)
        · exact Or.inl rfl
        · exact Or.inr h
      · rintro (rfl | h)
        · exact Or.inl rfl
        · by_cases hax : a = x
          · exact Or.inl hax
          · exact Or.inr ⟨h, hax⟩

theorem nodup_keepFirsts (l : List String) : (keepFirsts l).Nodup := by
  induction l using keepFirsts.induct with
  | case1 => simp [keepFirsts]
  | case2 x xs ih =>
      rw [keepFirsts]
      refine List.nodup_cons.2 ⟨fun hx => ?_, ih⟩
      have := List.mem_filter.1 (mem_keepFirsts.1 hx)
      simp at this

theorem keepFirsts_eq_self_of_nodup {l : List String} (h : l.Nodup) : keepFirsts l = l := by
  induction l using keepFirsts.induct with
  | case1 => simp [keepFirsts]
  | case2 x xs ih =>
      rw [keepFirsts]
      rcases List.nodup_cons.1 h with ⟨hx, hxs⟩
      have hfix : xs.filter (fun y => y != x) = xs := by
        refine List.filter_eq_self.2 fun a ha => ?_
        have hax : a ≠ x := fun he => hx (he ▸ ha)
        simpa using hax
      rw [hfix] at ih ⊢
      rw [ih hxs]

theorem keepFirsts_idem (l : List String) : keepFirsts (keepFirsts l) = keepFirsts l :=
  keepFirsts_eq_self_of_nodup (nodup_keepFirsts l)

/-- The indexed filter of `flattenAndFilter`, started after a prefix `pre` of
the full array, keeps exactly the first occurrences of values not already
seen in `pre`. -/
theorem filterWithIndex_indexOf :
    ∀ (l pre : List String),
      filterWithIndex (fun v i => (pre ++ l).indexOf v == i) l pre.length
        = keepFirsts (l.filter (fun v => !(pre.contains v)))
  | [], pre => by simp [filterWithIndex, keepFirsts]
  | x :: xs, pre => by
      rw [filterWithIndex]
      by_cases hx : x ∈ pre
      · have hidx : (pre ++ x :: xs).indexOf x = pre.indexOf x :=
          List.indexOf_append_of_mem hx
        have hlt : pre.indexOf x < pre.length := List.indexOf_lt_length.2 hx
        have hcond : ¬ (((pre ++ x :: xs).indexOf x == pre.length) = true) := by
          rw [hidx]
          simp only [beq_iff_eq]
          exact Nat.ne_of_lt hlt
        rw [if_neg hcond]
        have step : filterWithIndex (fun v i => (pre ++ x :: xs).indexOf v == i) xs
              (pre.length + 1)
            = keepFirsts (xs.filter (fun v => !((pre ++ [x]).contains v))) := by
          have h := filterWithIndex_indexOf xs (pre ++ [x])
          simpa [List.append_assoc] using h
        rw [step]
        have hfe : xs.filter (fun v => !((pre ++ [x]).contains v))
            = xs.filter (fun v => !(pre.contains v)) := by
          refine List.filter_congr fun a _ => ?_
          by_cases hap : a ∈ pre
          · simp [hap]
          · have hax : a ≠ x := fun h => hap (h ▸ hx)
            simp [hap, hax]
        have hhead : (x :: xs).filter (fun v => !(pre.contains v))
            = xs.filter (fun v => !(pre.contains v)) := by
          simp [List.filter_cons, hx]
        rw [hfe, hhead]
      · have hidx : (pre ++ x :: xs).indexOf x = pre.length := by
          rw [List.indexOf_append_of_not_mem hx, List.indexOf_cons_self]
          omega
        have hcond : ((pre ++ x :: xs).indexOf x == pre.length) = true := by
          simp [hidx]
        rw [if_pos hcond]
        have step : filterWithIndex (fun v i => (pre ++ x :: xs).indexOf v == i) xs
              (pre.length + 1)
            = keepFirsts (xs.filter (fun v => !((pre ++ [x]).contains v))) := by
          have h := filterWithIndex_indexOf xs (pre ++ [x])
          simpa [List.append_assoc] using h
        rw [step]
        have hhead : (x :: xs).filter (fun v => !(pre.contains v))
            = x :: xs.filter (fun v => !(pre.contains v)) := by
          simp [List.filter_cons, hx]
        rw [hhead, keepFirsts]
        have hfe : (xs.filter (fun v => !(pre.contains v))).filter (fun y => y != x)
            = xs.filter (fun v => !((pre ++ [x]).contains v)) := by
          rw [List.filter_filter]
          refine List.filter_congr fun a _ => ?_
          by_cases hap : a ∈ pre
          · simp [hap]
          · by_cases hax : a = x
            · simp [hap, hax]
            · simp [hap, hax]
        rw [hfe]
termination_by l => l.length

/-- `flattenAndFilter` is flattening followed by first-occurrence
deduplication. -/
theorem flattenAndFilter_eq_keepFirsts (arrays : List (List String)) :
    flattenAndFilter arrays = keepFirsts arrays.flatten := by
  have h := filterWithIndex_indexOf arrays.flatten []
  have hf : (arrays.flatten).filter (fun v => !(([] : List String).contains v))
      = arrays.flatten :=
    List.filter_eq_self.2 fun a _ => by simp
  rw [hf] at h
  simpa [flattenAndFilter] using h

/-- C8: `flattenAndFilter` returns the concatenation of the inner arrays in
order with duplicate values removed, keeping the first occurrence of each
value; every element of the result is distinct, and applying
`flattenAndFilter` to the singleton list of its own output returns the
output unchanged. -/
theorem C8_flattenAndFilter_keepFirsts_nodup_idem (arrays : List (List String)) :
    flattenAndFilter arrays = keepFirsts arrays.flatten
      ∧ (flattenAndFilter arrays).Nodup
      ∧ flattenAndFilter [flattenAndFilter arrays] = flattenAndFilter arrays := by
  have hsingle : ∀ l : List String, flattenAndFilter [l] = keepFirsts l := by
    intro l
    rw [flattenAndFilter_eq_keepFirsts]
    simp
  refine ⟨flattenAndFilter_eq_keepFirsts arrays, ?_, ?_⟩
  · rw [flattenAndFilter_eq_keepFirsts]
    exact nodup_keepFirsts _
  · rw [hsingle, flattenAndFilter_eq_keepFirsts, keepFirsts_idem]

/-- C1: the run request lifecycle.  `RequestStatus` has exactly the four
values `None`, `Requested`, `Responded` and `Error`; every run submission
sets the status to `REQUESTED` and disables all tabs and form controls
before the request is issued; completion transitions to exactly one of
`RESPONDED` (success) or `ERROR` (failure), re-enabling the form in both
outcomes; and `isRunRequestedStatus()` returns true if and only if the
status is `REQUESTED`. -/
theorem C1_requestStatus_lifecycle :
    (∀ st : RequestStatus,
        st = .NONE ∨ st = .REQUESTED ∨ st = .RESPONDED ∨ st = .ERROR)
    ∧ [RequestStatus.value .NONE, RequestStatus.value .REQUESTED,
        RequestStatus.value .RESPONDED, RequestStatus.value .ERROR]
        = ["None", "Requested", "Responded", "Error"]
    ∧ (∀ (s : ContentState) (td : Translation) (cid : String),
        (ContentComponent.run s td cid).state.requestStatus = .REQUESTED
        ∧ (ContentComponent.run s td cid).state.translationComponentDisabled = true
        ∧ (ContentComponent.run s td cid).state.accountsComponentsDisabled = true
        ∧ (ContentComponent.run s td cid).state.campaignsComponentsDisabled = true
        ∧ (ContentComponent.run s td cid).state.tabsDisabled = true)
    ∧ (∀ (s : ContentState) (r : Output),
        (ContentComponent.onRunSuccess s r).requestStatus = .RESPONDED
        ∧ (ContentComponent.onRunSuccess s r).translationComponentDisabled = false
        ∧ (ContentComponent.onRunSuccess s r).accountsComponentsDisabled = false
        ∧ (ContentComponent.onRunSuccess s r).campaignsComponentsDisabled = false
        ∧ (ContentComponent.onRunSuccess s r).tabsDisabled = false)
    ∧ (∀ (s : ContentState) (e : String),
        (ContentComponent.onRunError s e).requestStatus = .ERROR
        ∧ (ContentComponent.onRunError s e).translationComponentDisabled = false
        ∧ (ContentComponent.onRunError s e).accountsComponentsDisabled = false
        ∧ (ContentComponent.onRunError s e).campaignsComponentsDisabled = false
        ∧ (ContentComponent.onRunError s e).tabsDisabled = false)
    ∧ ((RequestStatus.RESPONDED == RequestStatus.ERROR) = false)
    ∧ (∀ s : ContentState,
        ContentComponent.isRunRequestedStatus s = true ↔ s.requestStatus = .REQUESTED) := by
  refine ⟨fun st => ?_, rfl, fun s td cid => ?_, fun s r => ?_, fun s e => ?_, rfl, fun s => ?_⟩
  · cases st <;> simp
  · refine ⟨?_, ?_, ?_, ?_, ?_⟩ <;>
      simp [ContentComponent.run, ContentComponent.disable]
  · refine ⟨?_, ?_, ?_, ?_, ?_⟩ <;>
      simp [ContentComponent.onRunSuccess, ContentComponent.disable]
  · refine ⟨?_, ?_, ?_, ?_, ?_⟩ <;>
      simp [ContentComponent.onRunError, ContentComponent.disable]
  · simp [ContentComponent.isRunRequestedStatus]

/-- C2: every run submission's request carries exactly the twelve parameters
`customer_ids`, `campaigns` (selected account/campaign ID lists flattened,
deduplicated keeping first occurrences, comma-joined),
`source_language_code`, `target_language_codes`,
`shorten_translations_to_char_limit`, `translate_keywords`,
`translate_ads`, `translate_extensions`, `glossary_id`, `workers_to_run`,
`client_id` and `endpoint` = `run`; with a translation-tab validation error
the language codes and glossary id are empty strings, the boolean flags the
string `false`, and the workers list is empty. -/
theorem C2_run_request_parameters (s : ContentState) (td : Translation) (cid : String) :
    (ContentComponent.run s td cid).request.map Prod.fst
        = ["customer_ids", "campaigns", "source_language_code", "target_language_codes",
           "shorten_translations_to_char_limit", "translate_keywords", "translate_ads",
           "translate_extensions", "glossary_id", "workers_to_run", "client_id", "endpoint"]
    ∧ (ContentComponent.hasTranslationError s = false →
        (ContentComponent.run s td cid).request
          = [("customer_ids", .str (String.intercalate "," (keepFirsts s.translationAccountIds))),
             ("campaigns", .str (String.intercalate "," (keepFirsts s.translationCampaignIds))),
             ("source_language_code", .str td.sourceLanguageCode),
             ("target_language_codes", .str td.targetLanguageCode),
             ("shorten_translations_to_char_limit",
               .str (toString td.shortenTranslationsToCharLimit)),
             ("translate_keywords", .str (toString td.translateKeywords)),
             ("translate_ads", .str (toString td.translateAds)),
             ("translate_extensions", .str (toString td.translateExtensions)),
             ("glossary_id", .str td.glossaryId),
             ("workers_to_run", .strList [Worker.value .TRANSLATION_WORKER]),
             ("client_id", .str cid),
             ("endpoint", .str "run")])
    ∧ (ContentComponent.hasTranslationError s = true →
        (ContentComponent.run s td cid).request
          = [("customer_ids", .str ""),
             ("campaigns", .str ""),
             ("source_language_code", .str ""),
             ("target_language_codes", .str ""),
             ("shorten_translations_to_char_limit", .str "false"),
             ("translate_keywords", .str "false"),
             ("translate_ads", .str "false"),
             ("translate_extensions", .str "false"),
             ("glossary_id", .str ""),
             ("workers_to_run", .strList []),
             ("client_id", .str cid),
             ("endpoint", .str "run")]) := by
  have hTE : ContentComponent.hasTranslationError
      { s with snackbarMessage := none, requestStatus := RequestStatus.REQUESTED }
      = ContentComponent.hasTranslationError s := rfl
  refine ⟨?_, ?_, ?_⟩
  · by_cases h : ContentComponent.hasTranslationError s <;>
      simp [ContentComponent.run, RunService.runValues, hTE, h]
  · intro h
    simp only [ContentComponent.run, RunService.runValues, hTE, h, Bool.false_eq_true,
      if_false, List.map_cons, List.map_nil, Worker.value]
    rw [flattenAndFilter_eq_keepFirsts, flattenAndFilter_eq_keepFirsts]
    simp
  · intro h
    have htf : (toString false : String) = "false" := rfl
    simp only [ContentComponent.run, RunService.runValues, hTE, h, if_true]
    simp [flattenAndFilter, filterWithIndex, String.intercalate, htf]

/-- C5: the `Worker` enum has the single member `TRANSLATION_WORKER` with
value `translationWorker`; a run submission's `workers_to_run` list contains
that worker if and only if the translation tab has no validation error, and
no other worker value can ever be sent. -/
theorem C5_single_translation_worker :
    (∀ w : Worker, w = .TRANSLATION_WORKER)
    ∧ Worker.value .TRANSLATION_WORKER = "translationWorker"
    ∧ (∀ (s : ContentState) (td : Translation) (cid : String),
        (ContentComponent.run s td cid).workersToRun
          = (if ContentComponent.hasTranslationError s then []
             else [Worker.value .TRANSLATION_WORKER])
        ∧ (Worker.value .TRANSLATION_WORKER ∈ (ContentComponent.run s td cid).workersToRun
            ↔ ContentComponent.hasTranslationError s = false)
        ∧ (∀ w ∈ (ContentComponent.run s td cid).workersToRun,
            w = Worker.value .TRANSLATION_WORKER)) := by
  have hTE : ∀ s : ContentState, ContentComponent.hasTranslationError
      { s with snackbarMessage := none, requestStatus := RequestStatus.REQUESTED }
      = ContentComponent.hasTranslationError s := fun _ => rfl
  refine ⟨fun w => by cases w <;> rfl, rfl, fun s td cid => ?_⟩
  have hw : (ContentComponent.run s td cid).workersToRun
      = (if ContentComponent.hasTranslationError s then []
         else [Worker.value .TRANSLATION_WORKER]) := by
    by_cases h : ContentComponent.hasTranslationError s <;>
      simp [ContentComponent.run, RunSubmission.workersToRun, RunService.runValues,
        List.lookup, hTE, h]
  refine ⟨hw, ?_, ?_⟩
  · rw [hw]
    by_cases h : ContentComponent.hasTranslationError s <;> simp [h]
  · intro w hwmem
    rw [hw] at hwmem
    by_cases h : ContentComponent.hasTranslationError s <;> simp [h] at hwmem
    exact hwmem

/-- C7: every failed request is handled uniformly — each service's
`handleError` keeps only the `HttpErrorResponse`'s message string — and on a
failed run the component sets the status to `ERROR`, re-enables the form,
shows the error message in the snackbar, and leaves the collected account,
campaign and translation selections untouched. -/
theorem C7_uniform_error_handling :
    (∀ e : HttpErrorResponse,
        RunService.handleError e = e.message
        ∧ GoogleAdsService.handleError e = e.message
        ∧ TranslationService.handleError e = e.message)
    ∧ (∀ (s : ContentState) (msg : String),
        (ContentComponent.onRunError s msg).requestStatus = .ERROR
        ∧ (ContentComponent.onRunError s msg).translationComponentDisabled = false
        ∧ (ContentComponent.onRunError s msg).accountsComponentsDisabled = false
        ∧ (ContentComponent.onRunError s msg).campaignsComponentsDisabled = false
        ∧ (ContentComponent.onRunError s msg).tabsDisabled = false
        ∧ (ContentComponent.onRunError s msg).snackbarMessage
            = some (msg, FontIcon.value .ERROR)
        ∧ (ContentComponent.onRunError s msg).translationAccountIds
            = s.translationAccountIds
        ∧ (ContentComponent.onRunError s msg).translationCampaignIds
            = s.translationCampaignIds
        ∧ (ContentComponent.onRunError s msg).translationAccountsHasValidationError
            = s.translationAccountsHasValidationError
        ∧ (ContentComponent.onRunError s msg).translationCampaignsHasValidationError
            = s.translationCampaignsHasValidationError
        ∧ (ContentComponent.onRunError s msg).translationHasValidationError
            = s.translationHasValidationError) := by
  exact ⟨fun e => ⟨rfl, rfl, rfl⟩,
    fun s msg => ⟨rfl, rfl, rfl, rfl, rfl, rfl, rfl, rfl, rfl, rfl, rfl⟩⟩

/-- C10 as stated is false: the accounts request is issued by
`GoogleAdsService.getAccounts` without going through `getRequestMethod`, and
on a non-localhost hostname it is a GET to `./proxy`, not a POST. -/
theorem C10_counterexample_getAccounts_is_get :
    (GoogleAdsService.getAccounts "keywordplatform.example.com").method = HttpMethod.get
    ∧ (GoogleAdsService.getAccounts "keywordplatform.example.com").method ≠ HttpMethod.post
    ∧ (GoogleAdsService.getAccounts "keywordplatform.example.com").path = "./proxy" := by
  refine ⟨rfl, ?_, rfl⟩
  simp [GoogleAdsService.getAccounts]

/-- C10 (amended): every service request issued through a service's
`getRequestMethod` (the run and campaigns requests) has method and path
determined solely by the hostname — on `localhost` a GET to
`./test-api/<api>.json` with the values as query parameters, otherwise a
POST of the same values to `./proxy` — and the two services' helpers agree;
the accounts and glossaries requests are instead always GETs to that same
pathname carrying an `endpoint` query parameter. -/
theorem C10_request_method_by_hostname (hostname api : String)
    (values : List (String × ParamValue)) :
    (hostname = "localhost" →
        RunService.getRequestMethod hostname api values
          = { method := .get, path := "./test-api/" ++ api ++ ".json",
              queryParams := some values, body := none })
    ∧ (hostname ≠ "localhost" →
        RunService.getRequestMethod hostname api values
          = { method := .post, path := "./proxy",
              queryParams := none, body := some values })
    ∧ GoogleAdsService.getRequestMethod hostname api values
        = RunService.getRequestMethod hostname api values
    ∧ (GoogleAdsService.getAccounts hostname).method = .get
    ∧ (GoogleAdsService.getAccounts hostname).path
        = RunService.getPathname hostname "accessible_accounts"
    ∧ (TranslationService.getGlossaries hostname).method = .get
    ∧ (TranslationService.getGlossaries hostname).path
        = RunService.getPathname hostname "list_glossaries" := by
  refine ⟨?_, ?_, ?_, rfl, ?_, rfl, ?_⟩
  · intro h
    simp [RunService.getRequestMethod, RunService.getPathname, h]
  · intro h
    simp [RunService.getRequestMethod, RunService.getPathname, h]
  · simp [RunService.getRequestMethod, RunService.getPathname,
      GoogleAdsService.getRequestMethod, GoogleAdsService.getPathname]
  · simp [GoogleAdsService.getAccounts, GoogleAdsService.getPathname, RunService.getPathname]
  · simp [TranslationService.getGlossaries, TranslationService.getHost, RunService.getPathname]

theorem sameLanguageCheck_isSome (L V : Option String) :
    ((sameLanguageCheck L V).isSome = true ↔
      (∃ code, V = some code ∧ code ≠ "" ∧ L = some code))
    ∧ (jsFalsyStr L = true → sameLanguageCheck L V = none)
    ∧ (jsFalsyStr V = true → sameLanguageCheck L V = none)
    ∧ ((sameLanguageCheck L V).isSome = true →
        sameLanguageCheck L V = some ⟨V.getD ""⟩) := by
  unfold sameLanguageCheck
  cases L with
  | none => simp [jsFalsyStr]
  | some lang =>
      cases V with
      | none => simp [jsFalsyStr]
      | some code =>
          by_cases hle : lang = ""
          · subst hle
            simp only [jsFalsyStr, beq_iff_eq]
            by_cases hce : code = ""
            · simp [hce]
            · have hec : ¬ "" = code := fun h => hce h.symm
              simp [hce, hec]
          · by_cases hce : code = ""
            · simp [jsFalsyStr, hce]
            · by_cases heq : code = lang
              · subst heq
                simp [jsFalsyStr, hce]
              · have hqe : ¬ lang = code := fun h => heq h.symm
                simp [jsFalsyStr, hce, hle, heq, hqe]

/-- C3: the validator returns a `sameLanguage` error exactly when the
control's own code and the opposite control's code are both defined,
non-empty and equal; whenever either code is undefined or empty it returns
null, so no error is raised on initial load.  The translation and form
components' validators agree. -/
theorem C3_same_language_validator (controlName : String)
    (src tgt cv : Option String) :
    ((TranslationComponent.isSameLanguageValidator controlName src tgt cv).isSome = true ↔
        (∃ code, cv = some code ∧ code ≠ ""
          ∧ oppositeLanguageCode controlName src tgt = some code))
    ∧ (jsFalsyStr (oppositeLanguageCode controlName src tgt) = true →
        TranslationComponent.isSameLanguageValidator controlName src tgt cv = none)
    ∧ (jsFalsyStr cv = true →
        TranslationComponent.isSameLanguageValidator controlName src tgt cv = none)
    ∧ ((TranslationComponent.isSameLanguageValidator controlName src tgt cv).isSome = true →
        TranslationComponent.isSameLanguageValidator controlName src tgt cv
          = some ⟨cv.getD ""⟩)
    ∧ TranslationComponent.isSameLanguageValidator controlName src tgt cv
        = FormComponent.isSameLanguageValidator controlName src tgt cv := by
  have h := sameLanguageCheck_isSome (oppositeLanguageCode controlName src tgt) cv
  exact ⟨h.1, h.2.1, h.2.2.1, h.2.2.2, rfl⟩

theorem extMatch_sound {cs e : List Char} (h : extMatch cs = some e) :
    (e = ['.', 'c', 's', 'v'] ∨ e = ['.', 'x', 'l', 's', 'x'])
      ∧ cs = e ++ cs.drop e.length := by
  unfold extMatch at h
  by_cases h4 : cs.take 4 = ['.', 'c', 's', 'v']
  · rw [if_pos h4] at h
    cases h
    refine ⟨Or.inl rfl, ?_⟩
    conv_lhs => rw [← List.take_append_drop 4 cs]
    rw [h4]
    rfl
  · rw [if_neg h4] at h
    by_cases h5 : cs.take 5 = ['.', 'x', 'l', 's', 'x']
    · rw [if_pos h5] at h
      cases h
      refine ⟨Or.inr rfl, ?_⟩
      conv_lhs => rw [← List.take_append_drop 5 cs]
      rw [h5]
      rfl
    · rw [if_neg h5] at h
      cases h

theorem extMatch_of_ext {e : List Char} (suf : List Char)
    (he : e = ['.', 'c', 's', 'v'] ∨ e = ['.', 'x', 'l', 's', 'x']) :
    extMatch (e ++ suf) = some e := by
  rcases he with rfl | rfl
  · have h4 : (['.', 'c', 's', 'v'] ++ suf).take 4 = ['.', 'c', 's', 'v'] := by
      simp
    unfold extMatch
    rw [if_pos h4]
  · have h4 : (['.', 'x', 'l', 's', 'x'] ++ suf).take 4 = ['.', 'x', 'l', 's'] := rfl
    have h5 : (['.', 'x', 'l', 's', 'x'] ++ suf).take 5 = ['.', 'x', 'l', 's', 'x'] := by
      simp
    unfold extMatch
    rw [h4, h5]
    simp

theorem greedyCapture_sound {cs : List Char} :
    ∀ {a : Nat} {cap : List Char}, greedyCapture cs a = some cap →
      ∃ k e, 1 ≤ k ∧ k ≤ a ∧ extMatch (cs.drop k) = some e ∧ cap = cs.take k ++ e := by
  intro a
  induction a with
  | zero => intro cap h; cases h
  | succ a ih =>
      intro cap h
      rw [greedyCapture] at h
      cases hext : extMatch (cs.drop (a + 1)) with
      | some e =>
          rw [hext] at h
          cases h
          exact ⟨a + 1, e, Nat.succ_le_succ (Nat.zero_le a), Nat.le_refl _, hext, rfl⟩
      | none =>
          rw [hext] at h
          obtain ⟨k, e, h1, h2, h3, h4⟩ := ih h
          exact ⟨k, e, h1, Nat.le_succ_of_le h2, h3, h4⟩

theorem greedyCapture_none {cs : List Char} :
    ∀ {a : Nat}, greedyCapture cs a = none →
      ∀ k, 1 ≤ k → k ≤ a → extMatch (cs.drop k) = none := by
  intro a
  induction a with
  | zero => intro _ k h1 h2; omega
  | succ a ih =>
      intro h k h1 h2
      rw [greedyCapture] at h
      cases hext : extMatch (cs.drop (a + 1)) with
      | some e => rw [hext] at h; cases h
      | none =>
          rw [hext] at h
          rcases Nat.lt_or_ge k (a + 1) with hk | hk
          · exact ih h k h1 (Nat.lt_succ_iff.1 hk)
          · have : k = a + 1 := Nat.le_antisymm h2 hk
            exact this ▸ hext

theorem all_take_of_le_takeWhile {p : Char → Bool} :
    ∀ (cs : List Char) (k : Nat), k ≤ (cs.takeWhile p).length →
      ∀ c ∈ cs.take k, p c = true := by
  intro cs
  induction cs with
  | nil => intro k _ c hc; simp at hc
  | cons x xs ih =>
      intro k hk c hc
      cases k with
      | zero => simp at hc
      | succ k =>
          by_cases hx : p x
          · rw [List.takeWhile_cons, if_pos hx] at hk
            simp only [List.length_cons, Nat.succ_le_succ_iff] at hk
            rw [List.take_succ_cons] at hc
            rcases List.mem_cons.1 hc with rfl | hc
            · exact hx
            · exact ih k hk c hc
          · rw [List.takeWhile_cons, if_neg hx] at hk
            simp at hk

theorem le_takeWhile_of_all {p : Char → Bool} :
    ∀ (A rest : List Char), (∀ c ∈ A, p c = true) →
      A.length ≤ ((A ++ rest).takeWhile p).length := by
  intro A
  induction A with
  | nil => intro rest _; simp
  | cons x xs ih =>
      intro rest hall
      have hx : p x = true := hall x (List.mem_cons_self _ _)
      rw [List.cons_append, List.takeWhile_cons, if_pos hx]
      simp only [List.length_cons, Nat.succ_le_succ_iff]
      exact ih rest fun c hc => hall c (List.mem_cons_of_mem _ hc)

theorem specCapture_cons {cs cap : List Char} (c : Char) (h : SpecCapture cs cap) :
    SpecCapture (c :: cs) cap := by
  obtain ⟨pre, A, e, suf, h1, h2, h3, h4, h5⟩ := h
  exact ⟨c :: pre, A, e, suf, by rw [List.cons_append, h1], h2, h3, h4, h5⟩

theorem scanMatch_sound :
    ∀ {cs cap : List Char}, scanMatch cs = some cap → SpecCapture cs cap := by
  intro cs
  induction cs with
  | nil => intro cap h; cases h
  | cons c cs ih =>
      intro cap h
      rw [scanMatch] at h
      by_cases hc : c = '/'
      · rw [if_pos hc] at h
        cases hgc : greedyCapture cs (cs.takeWhile (fun x => x != '/')).length with
        | some cap' =>
            rw [hgc] at h
            cases h
            obtain ⟨k, e, hk1, hk2, hext, hcap⟩ := greedyCapture_sound hgc
            obtain ⟨he, hdrop⟩ := extMatch_sound hext
            have hklen : k ≤ cs.length :=
              Nat.le_trans hk2 ((List.takeWhile_sublist _).length_le)
            have htklen : (cs.take k).length = k := by
              simp [List.length_take]
              omega
            refine ⟨[], cs.take k, e, (cs.drop k).drop e.length, ?_, hcap, ?_, ?_, he⟩
            · subst hc
              rw [List.nil_append]
              have hcs : cs = cs.take k ++ e ++ (cs.drop k).drop e.length := by
                conv_lhs => rw [← List.take_append_drop k cs, hdrop]
                rw [List.append_assoc]
              rw [← hcs]
            · intro hnil
              rw [hnil] at htklen
              simp at htklen
              omega
            · intro x hx
              have := all_take_of_le_takeWhile cs k hk2 x hx
              simpa using this
        | none =>
            rw [hgc] at h
            exact specCapture_cons c (ih h)
      · rw [if_neg hc] at h
        exact specCapture_cons c (ih h)

theorem scanMatch_complete :
    ∀ {cs cap : List Char}, SpecCapture cs cap → scanMatch cs ≠ none := by
  intro cs
  induction cs with
  | nil =>
      intro cap h
      obtain ⟨pre, A, e, suf, h1, -, -, -, -⟩ := h
      cases pre <;> simp at h1
  | cons c cs ih =>
      intro cap h
      obtain ⟨pre, A, e, suf, h1, h2, h3, h4, h5⟩ := h
      rw [scanMatch]
      by_cases hc : c = '/'
      · cases hgc : greedyCapture cs (cs.takeWhile (fun x => x != '/')).length with
        | some cap' => simp [if_pos hc, hgc]
        | none =>
            cases pre with
            | nil =>
                exfalso
                simp only [List.nil_append, List.cons.injEq] at h1
                have hcs : cs = A ++ (e ++ suf) := by
                  rw [h1.2, List.append_assoc]
                have hkpos : 1 ≤ A.length := by
                  cases A with
                  | nil => exact absurd rfl h3
                  | cons a as => simp
                have hkle : A.length ≤ (cs.takeWhile (fun x => x != '/')).length := by
                  rw [hcs]
                  exact le_takeWhile_of_all A (e ++ suf) fun x hx => by
                    simpa using h4 x hx
                have hdrop : cs.drop A.length = e ++ suf := by
                  rw [hcs]
                  exact List.drop_left A (e ++ suf)
                have hext : extMatch (cs.drop A.length) = some e := by
                  rw [hdrop]
                  exact extMatch_of_ext suf h5
                have := greedyCapture_none hgc A.length hkpos hkle
                rw [this] at hext
                cases hext
            | cons p0 pre' =>
                simp only [List.cons_append, List.cons.injEq] at h1
                have : SpecCapture cs cap := ⟨pre', A, e, suf, h1.2, h2, h3, h4, h5⟩
                simp only [if_pos hc, hgc]
                exact ih this
      · cases pre with
        | nil =>
            exfalso
            simp only [List.nil_append, List.cons.injEq] at h1
            exact hc h1.1
        | cons p0 pre' =>
            simp only [List.cons_append, List.cons.injEq] at h1
            have : SpecCapture cs cap := ⟨pre', A, e, suf, h1.2, h2, h3, h4, h5⟩
            simp only [if_neg hc]
            exact ih this

theorem specCapture_cap_ne_nil {cs cap : List Char} (h : SpecCapture cs cap) : cap ≠ [] := by
  obtain ⟨pre, A, e, suf, -, h2, h3, -, h5⟩ := h
  subst h2
  intro hnil
  rcases List.append_eq_nil.1 hnil with ⟨hA, -⟩
  exact h3 hA

/-- C6 as stated is false on the filename side: the display name derived
from `/a.csv.txt` is `a.csv`, although no path segment of that URL ends in
`.csv` or `.xlsx` (so the claim requires the empty string). -/
theorem C6_counterexample_segment_name :
    DialogComponent.getFileNameFromUrl "/a.csv.txt" = "a.csv"
    ∧ (splitSlash "/a.csv.txt".toList).all (fun seg => !(endsWithCsvOrXlsx seg)) = true := by
  refine ⟨?_, ?_⟩ <;> decide

/-- C6 (amended): on status 200 the dialog stores the body's `asset_urls`;
on 500 and on any other status it stores no asset URLs and a fixed
server-error or unknown-error message.  A link's display name is the
leftmost, greedily-longest slash-free substring that follows a `/` and ends
in `.csv` or `.xlsx` — possibly a proper prefix of a path segment — and the
empty string is returned exactly when the URL contains no such substring. -/
theorem C6_dialog_status_and_filenames :
    (∀ v : Output, DialogComponent.ngOnInit (some 200) v
        = { assetUrls := some v.asset_urls, message := none, status := some 200 })
    ∧ (∀ v : Output, DialogComponent.ngOnInit (some 500) v
        = { assetUrls := none, message := some (ResponseMessage.value .SERVER_ERROR),
            status := some 500 })
    ∧ (∀ (st : Option Int) (v : Output), st ≠ some 200 → st ≠ some 500 →
        DialogComponent.ngOnInit st v
          = { assetUrls := none, message := some (ResponseMessage.value .UNKNOWN_ERROR),
              status := none })
    ∧ (∀ url : String,
        (DialogComponent.getFileNameFromUrl url = "" ↔ ¬ HasCapture url.toList)
        ∧ (DialogComponent.getFileNameFromUrl url ≠ "" →
            SpecCapture url.toList (DialogComponent.getFileNameFromUrl url).toList)) := by
  refine ⟨?_, ?_, ?_, ?_⟩
  · intro v
    simp [DialogComponent.ngOnInit, ResponseStatus.value]
  · intro v
    simp [DialogComponent.ngOnInit, ResponseStatus.value]
  · intro st v h1 h2
    simp [DialogComponent.ngOnInit, ResponseStatus.value, h1, h2]
  · intro url
    have hmk : ∀ cap : List Char, (String.mk cap).toList = cap := fun _ => rfl
    constructor
    · cases hscan : scanMatch url.toList with
      | none =>
          refine iff_of_true ?_ ?_
          · unfold DialogComponent.getFileNameFromUrl
            rw [hscan]
          · rintro ⟨cap, hcap⟩
            exact scanMatch_complete hcap hscan
      | some cap =>
          refine iff_of_false ?_ (not_not_intro ⟨cap, scanMatch_sound hscan⟩)
          have hval : DialogComponent.getFileNameFromUrl url = String.mk cap := by
            unfold DialogComponent.getFileNameFromUrl
            rw [hscan]
          rw [hval]
          intro hempty
          have hnil : cap = [] := by
            have := congrArg String.toList hempty
            simpa [hmk] using this
          exact specCapture_cap_ne_nil (scanMatch_sound hscan) hnil
    · intro hne
      cases hscan : scanMatch url.toList with
      | none =>
          refine absurd ?_ hne
          unfold DialogComponent.getFileNameFromUrl
          rw [hscan]
      | some cap =>
          have hval : DialogComponent.getFileNameFromUrl url = String.mk cap := by
            unfold DialogComponent.getFileNameFromUrl
            rw [hscan]
          rw [hval, hmk]
          exact scanMatch_sound hscan

namespace MultiSelect

theorem deref_arena_append {s : State} {ext : List OptionR} {a : Nat}
    (h : a < s.arena.length) :
    ({ s with arena := s.arena ++ ext } : State).arena.getD a default = deref s a :=
  List.getD_append _ _ _ _ h

theorem setSelected_fields (s : State) (a : Nat) (b : Bool) :
    (setSelected s a b).selectionValues = s.selectionValues
    ∧ (setSelected s a b).selectedOptions = s.selectedOptions
    ∧ (setSelected s a b).checkboxes = s.checkboxes
    ∧ (setSelected s a b).hasUpdatedSelection = s.hasUpdatedSelection
    ∧ (setSelected s a b).arena.length = s.arena.length :=
  ⟨rfl, rfl, rfl, rfl, List.length_set _ _ _⟩

theorem deref_setSelected_selectionData (s : State) (a : Nat) (b : Bool) (x : Nat) :
    (deref (setSelected s a b) x).selectionData = (deref s x).selectionData := by
  unfold deref setSelected
  by_cases hx : x = a
  · subst hx
    by_cases hlt : x < s.arena.length
    · simp [List.getD, List.getElem?_set_self, hlt]
    · have hset : s.arena.set x { s.arena.getD x default with selected := b } = s.arena :=
        List.set_eq_of_length_le (by omega)
      rw [hset]
  · simp [List.getD, List.getElem?_set_ne (fun hh => hx hh.symm)]

theorem deref_setSelected_ne (s : State) (a : Nat) (b : Bool) {x : Nat} (h : x ≠ a) :
    deref (setSelected s a b) x = deref s x := by
  unfold deref setSelected
  simp [List.getD, List.getElem?_set_ne (fun hh => h hh.symm)]

theorem deref_setSelected_false_selected (s : State) (a : Nat) (x : Nat)
    (h : (deref s x).selected = false ∨ x = a) :
    (deref (setSelected s a false) x).selected = false := by
  rcases h with h | rfl
  · by_cases hx : x = a
    · subst hx
      unfold deref setSelected
      by_cases hlt : x < s.arena.length
      · simp [List.getD, List.getElem?_set_self, hlt]
      · have hset : s.arena.set x { s.arena.getD x default with selected := false } = s.arena :=
          List.set_eq_of_length_le (by omega)
        rw [hset]
        exact h
    · rw [deref_setSelected_ne s a false hx]
      exact h
  · unfold deref setSelected
    by_cases hlt : x < s.arena.length
    · simp [List.getD, List.getElem?_set_self, hlt]
    · have hset : s.arena.set x { s.arena.getD x default with selected := false } = s.arena :=
        List.set_eq_of_length_le (by omega)
      rw [hset]
      have hd : s.arena.getD x default = default := List.getD_eq_default _ _ (by omega)
      rw [hd]
      rfl

theorem mem_tail_take_append_drop {l : List Nat} {n : Nat} {x : Nat}
    (h : x ∈ (l.take n ++ l.drop (n + 1)).tail) : x ∈ l.tail := by
  cases n with
  | zero =>
      simp only [List.take_zero, List.nil_append] at h
      have : l.drop 1 = l.tail := List.drop_one l
      rw [this] at h
      exact List.mem_of_mem_tail h
  | succ m =>
      cases l with
      | nil => simp at h
      | cons c rest =>
          simp only [List.take_succ_cons, List.drop_succ_cons, List.cons_append,
            List.tail_cons] at h
          rcases List.mem_append.1 h with h | h
          · exact (List.take_sublist m rest).mem h
          · exact (List.drop_sublist (m + 1) rest).mem h

theorem mem_tail_spliceOne {l : List Nat} {i : Int} {x : Nat}
    (h : x ∈ (spliceOne l i).tail) : x ∈ l.tail := by
  unfold spliceOne at h
  exact mem_tail_take_append_drop h

theorem deref_alloc_head (t : State) (o : OptionR) (ext : List OptionR) :
    (t.arena ++ o :: ext).getD t.arena.length default = o := by
  rw [List.getD_append_right _ _ _ _ (Nat.le_refl _)]
  simp

theorem pushList_struct :
    ∀ (vals : List Selection) (t : State),
      ∃ addrs : List Nat,
        (vals.foldl pushValue t).selectionValues = t.selectionValues ++ addrs
        ∧ (vals.foldl pushValue t).arena
            = t.arena ++ vals.map (fun v => (⟨v, false⟩ : OptionR))
        ∧ addrs.map (deref (vals.foldl pushValue t))
            = vals.map (fun v => (⟨v, false⟩ : OptionR))
        ∧ (∀ c ∈ addrs, c < (vals.foldl pushValue t).arena.length)
        ∧ (vals.foldl pushValue t).selectedOptions = t.selectedOptions
        ∧ (vals.foldl pushValue t).checkboxes = t.checkboxes
        ∧ (vals.foldl pushValue t).hasUpdatedSelection = t.hasUpdatedSelection := by
  intro vals
  induction vals with
  | nil =>
      intro t
      exact ⟨[], by simp, by simp, rfl, by simp, rfl, rfl, rfl⟩
  | cons v rest ih =>
      intro t
      have hfold : (v :: rest).foldl pushValue t = rest.foldl pushValue (pushValue t v) := rfl
      obtain ⟨addrs, h1, h2, h3, h4, h5, h6, h7⟩ := ih (pushValue t v)
      have hpv_vals : (pushValue t v).selectionValues
          = t.selectionValues ++ [t.arena.length] := rfl
      have hpv_arena : (pushValue t v).arena = t.arena ++ [⟨v, false⟩] := rfl
      refine ⟨t.arena.length :: addrs, ?_, ?_, ?_, ?_, ?_, ?_, ?_⟩
      · rw [hfold, h1, hpv_vals, List.append_assoc]
        rfl
      · rw [hfold, h2, hpv_arena, List.append_assoc]
        rfl
      · rw [hfold]
        simp only [List.map_cons]
        have harena : (rest.foldl pushValue (pushValue t v)).arena
            = t.arena ++ (⟨v, false⟩ : OptionR) :: rest.map (fun v => (⟨v, false⟩ : OptionR)) := by
          rw [h2, hpv_arena, List.append_assoc]
          rfl
        have hhead : deref (rest.foldl pushValue (pushValue t v)) t.arena.length
            = (⟨v, false⟩ : OptionR) := by
          unfold deref
          rw [harena]
          exact deref_alloc_head t _ _
        rw [hhead, h3]
      · intro c hc
        rcases List.mem_cons.1 hc with rfl | hc
        · rw [hfold, h2, hpv_arena]
          simp
        · exact hfold ▸ h4 c hc
      · rw [hfold, h5]
        rfl
      · rw [hfold, h6]
        rfl
      · rw [hfold, h7]
        rfl

theorem appendCopies_struct (b : Bool) :
    ∀ (vals : List Nat) (t : State), (∀ a ∈ vals, a < t.arena.length) →
      ∃ addrs : List Nat,
        (appendCopies b t vals).selectedOptions = t.selectedOptions ++ addrs
        ∧ (appendCopies b t vals).arena
            = t.arena ++ vals.map (fun a => (⟨(deref t a).selectionData, b⟩ : OptionR))
        ∧ addrs.map (deref (appendCopies b t vals))
            = vals.map (fun a => (⟨(deref t a).selectionData, b⟩ : OptionR))
        ∧ (∀ c ∈ addrs, c < (appendCopies b t vals).arena.length)
        ∧ (appendCopies b t vals).selectionValues = t.selectionValues
        ∧ (appendCopies b t vals).checkboxes = t.checkboxes
        ∧ (appendCopies b t vals).hasUpdatedSelection = t.hasUpdatedSelection := by
  intro vals
  induction vals with
  | nil =>
      intro t _
      exact ⟨[], by simp [appendCopies], by simp [appendCopies], rfl,
        by simp [appendCopies], rfl, rfl, rfl⟩
  | cons a rest ih =>
      intro t hv
      have ha : a < t.arena.length := hv a (List.mem_cons_self _ _)
      set t1 : State :=
        { t with arena := t.arena ++ [⟨(deref t a).selectionData, b⟩],
                 selectedOptions := t.selectedOptions ++ [t.arena.length] } with ht1
      have hfold : appendCopies b t (a :: rest) = appendCopies b t1 rest := rfl
      have hv1 : ∀ x ∈ rest, x < t1.arena.length := by
        intro x hx
        have := hv x (List.mem_cons_of_mem _ hx)
        simp only [ht1, List.length_append, List.length_cons, List.length_nil]
        omega
      have hderef1 : ∀ x ∈ rest, deref t1 x = deref t x := by
        intro x hx
        unfold deref
        simp only [ht1]
        exact List.getD_append _ _ _ _ (hv x (List.mem_cons_of_mem _ hx))
      obtain ⟨addrs, h1, h2, h3, h4, h5, h6, h7⟩ := ih t1 hv1
      have hmaps : rest.map (fun x => (⟨(deref t1 x).selectionData, b⟩ : OptionR))
          = rest.map (fun x => (⟨(deref t x).selectionData, b⟩ : OptionR)) :=
        List.map_congr_left fun x hx => by rw [hderef1 x hx]
      refine ⟨t.arena.length :: addrs, ?_, ?_, ?_, ?_, ?_, ?_, ?_⟩
      · rw [hfold, h1]
        simp only [ht1, List.append_assoc]
        rfl
      · rw [hfold, h2, hmaps]
        simp only [ht1, List.append_assoc]
        rfl
      · rw [hfold]
        simp only [List.map_cons]
        have harena : (appendCopies b t1 rest).arena
            = t.arena ++ (⟨(deref t a).selectionData, b⟩ : OptionR)
                :: rest.map (fun x => (⟨(deref t x).selectionData, b⟩ : OptionR)) := by
          rw [h2, hmaps]
          simp only [ht1, List.append_assoc]
          rfl
        have hhead : deref (appendCopies b t1 rest) t.arena.length
            = (⟨(deref t a).selectionData, b⟩ : OptionR) := by
          unfold deref
          rw [harena]
          exact deref_alloc_head t _ _
        rw [hhead, h3, hmaps]
      · intro c hc
        rcases List.mem_cons.1 hc with rfl | hc
        · rw [hfold, h2]
          simp only [ht1, List.length_append, List.length_cons, List.length_nil]
          omega
        · exact hfold ▸ h4 c hc
      · rw [hfold, h5]
      · rw [hfold, h6]
      · rw [hfold, h7]

theorem foldSetSelected_false_mono :
    ∀ (vals : List Nat) (t : State) (x : Nat), (deref t x).selected = false →
      (deref (vals.foldl (fun u a => setSelected u a false) t) x).selected = false := by
  intro vals
  induction vals with
  | nil => intro t x h; exact h
  | cons a rest ih =>
      intro t x h
      simp only [List.foldl_cons]
      exact ih (setSelected t a false) x (deref_setSelected_false_selected t a x (Or.inl h))

theorem foldSetSelected_struct :
    ∀ (vals : List Nat) (t : State),
      (vals.foldl (fun u a => setSelected u a false) t).selectionValues = t.selectionValues
      ∧ (vals.foldl (fun u a => setSelected u a false) t).selectedOptions = t.selectedOptions
      ∧ (vals.foldl (fun u a => setSelected u a false) t).checkboxes = t.checkboxes
      ∧ (vals.foldl (fun u a => setSelected u a false) t).hasUpdatedSelection
          = t.hasUpdatedSelection
      ∧ (vals.foldl (fun u a => setSelected u a false) t).arena.length = t.arena.length
      ∧ (∀ x, (deref (vals.foldl (fun u a => setSelected u a false) t) x).selectionData
            = (deref t x).selectionData)
      ∧ (∀ a ∈ vals,
          (deref (vals.foldl (fun u a => setSelected u a false) t) a).selected = false) := by
  intro vals
  induction vals with
  | nil =>
      intro t
      refine ⟨rfl, rfl, rfl, rfl, rfl, fun x => rfl, ?_⟩
      intro a ha
      simp at ha
  | cons a rest ih =>
      intro t
      simp only [List.foldl_cons]
      obtain ⟨h1, h2, h3, h4, h5, h6, h7⟩ := ih (setSelected t a false)
      refine ⟨h1, h2, h3, h4, ?_, ?_, ?_⟩
      · rw [h5]
        exact (setSelected_fields t a false).2.2.2.2
      · intro x
        rw [h6 x, deref_setSelected_selectionData]
      · intro x hx
        rcases List.mem_cons.1 hx with heq | hx
        · subst heq
          exact foldSetSelected_false_mono rest (setSelected t x false) x
            (deref_setSelected_false_selected t x x (Or.inr rfl))
        · exact h7 x hx

theorem removeAndUncheck_struct (s : State) :
    (removeAndUncheckAllSelectedOptions s).selectedOptions = []
    ∧ (removeAndUncheckAllSelectedOptions s).selectionValues = s.selectionValues
    ∧ (removeAndUncheckAllSelectedOptions s).checkboxes
        = s.checkboxes.map (fun cb => { cb with checked := false })
    ∧ (removeAndUncheckAllSelectedOptions s).hasUpdatedSelection = s.hasUpdatedSelection
    ∧ (removeAndUncheckAllSelectedOptions s).arena.length = s.arena.length
    ∧ (∀ x, (deref (removeAndUncheckAllSelectedOptions s) x).selectionData
          = (deref s x).selectionData)
    ∧ (∀ a ∈ s.selectionValues,
        (deref (removeAndUncheckAllSelectedOptions s) a).selected = false) := by
  obtain ⟨h1, h2, h3, h4, h5, h6, h7⟩ := foldSetSelected_struct s.selectionValues s
  unfold removeAndUncheckAllSelectedOptions removeAllSelectedOptions
    setCheckStatusForAllSelectedOptions
  refine ⟨rfl, by simp only [h1], by simp only [h3], by simp only [h4], by simp only [h5],
    fun x => h6 x, fun a ha => h7 a ha⟩

/-- `ngOnChanges` with an undefined current value only clears
`selectionValues`. -/
theorem ngOnChanges_none (s : State) :
    ngOnChanges s none = { s with selectionValues := [] } := rfl

theorem ngOnChanges_struct (s : State) (vals : List Selection) :
    ∃ addrs : List Nat,
      (ngOnChanges s (some vals)).selectionValues = addrs
      ∧ addrs.map (deref (ngOnChanges s (some vals)))
          = (if vals.length > 1 then [pseudoOption] else [])
            ++ vals.map (fun v => (⟨v, false⟩ : OptionR))
      ∧ (ngOnChanges s (some vals)).arena
          = s.arena ++ (if vals.length > 1 then [pseudoOption] else [])
            ++ vals.map (fun v => (⟨v, false⟩ : OptionR))
      ∧ (∀ c ∈ addrs, c < (ngOnChanges s (some vals)).arena.length)
      ∧ (ngOnChanges s (some vals)).selectedOptions = s.selectedOptions
      ∧ (ngOnChanges s (some vals)).checkboxes = s.checkboxes
      ∧ (ngOnChanges s (some vals)).hasUpdatedSelection = s.hasUpdatedSelection := by
  by_cases hlen : vals.length > 1
  · have hng : ngOnChanges s (some vals)
        = vals.foldl pushValue
            { s with
              arena := s.arena ++ [pseudoOption],
              selectionValues := [s.arena.length] } := by
      simp only [ngOnChanges]
      rw [if_pos hlen]
      rfl
    obtain ⟨addrs, h1, h2, h3, h4, h5, h6, h7⟩ := pushList_struct vals
      { s with
        arena := s.arena ++ [pseudoOption],
        selectionValues := [s.arena.length] }
    refine ⟨s.arena.length :: addrs, ?_, ?_, ?_, ?_, ?_, ?_, ?_⟩
    · rw [hng, h1]
      rfl
    · rw [hng]
      simp only [List.map_cons, if_pos hlen]
      have harena : (vals.foldl pushValue
            { s with
              arena := s.arena ++ [pseudoOption],
              selectionValues := [s.arena.length] }).arena
          = s.arena ++ pseudoOption :: vals.map (fun v => (⟨v, false⟩ : OptionR)) := by
        rw [h2]
        simp only [List.append_assoc]
        rfl
      have hhead : deref (vals.foldl pushValue
            { s with
              arena := s.arena ++ [pseudoOption],
              selectionValues := [s.arena.length] }) s.arena.length = pseudoOption := by
        unfold deref
        rw [harena]
        exact deref_alloc_head s _ _
      rw [hhead, h3]
      rfl
    · rw [hng, h2]
      simp only [if_pos hlen, List.append_assoc]
    · intro c hc
      rcases List.mem_cons.1 hc with heq | hc
      · subst heq
        rw [hng, h2]
        simp only [List.length_append, List.length_cons, List.length_nil, List.length_map]
        omega
      · rw [hng]
        exact h4 c hc
    · rw [hng, h5]
    · rw [hng, h6]
    · rw [hng, h7]
  · have hng : ngOnChanges s (some vals)
        = vals.foldl pushValue { s with selectionValues := ([] : List Nat) } := by
      simp only [ngOnChanges]
      rw [if_neg hlen]
    obtain ⟨addrs, h1, h2, h3, h4, h5, h6, h7⟩ :=
      pushList_struct vals { s with selectionValues := ([] : List Nat) }
    refine ⟨addrs, ?_, ?_, ?_, ?_, ?_, ?_, ?_⟩
    · rw [hng, h1]
      rfl
    · rw [hng, h3]
      simp [hlen]
    · rw [hng, h2]
      simp [hlen]
    · intro c hc
      rw [hng]
      exact h4 c hc
    · rw [hng, h5]
    · rw [hng, h6]
    · rw [hng, h7]

theorem deref_out_of_range {s : State} {x : Nat} (h : s.arena.length ≤ x) :
    deref s x = default := by
  unfold deref
  exact List.getD_eq_default _ _ h

theorem selected_true_in_range {s : State} {x : Nat}
    (h : (deref s x).selected = true) : x < s.arena.length := by
  by_contra hlt
  rw [deref_out_of_range (by omega)] at h
  cases h

theorem mem_tail_append_singleton {l : List Nat} {a x : Nat}
    (h : x ∈ (l ++ [a]).tail) : x ∈ l.tail ∨ x = a := by
  cases l with
  | nil => simp at h
  | cons c rest =>
      simp only [List.cons_append, List.tail_cons] at h
      rcases List.mem_append.1 h with h | h
      · exact Or.inl h
      · exact Or.inr (by simpa using h)

theorem mem_spliceOne {l : List Nat} {i : Int} {x : Nat} (h : x ∈ spliceOne l i) : x ∈ l := by
  unfold spliceOne at h
  rcases List.mem_append.1 h with h | h
  · exact (List.take_sublist _ l).mem h
  · exact (List.drop_sublist _ l).mem h

theorem tail_map {α β : Type} (f : α → β) (l : List α) : (l.map f).tail = l.tail.map f := by
  cases l <;> rfl

theorem getD_append_pseudo_id {l ext : List OptionR}
    (hl : ∀ x : Nat, (l.getD x default).selectionData.pseudo = true →
      (l.getD x default).selectionData.id = selectAllOptionId)
    (hext : ∀ o ∈ ext, o.selectionData.pseudo = true →
      o.selectionData.id = selectAllOptionId) :
    ∀ x : Nat, ((l ++ ext).getD x default).selectionData.pseudo = true →
      ((l ++ ext).getD x default).selectionData.id = selectAllOptionId := by
  intro x
  by_cases hx : x < l.length
  · rw [List.getD_append _ _ _ _ hx]
    exact hl x
  · rw [List.getD_append_right _ _ _ _ (by omega)]
    by_cases hx2 : x - l.length < ext.length
    · have hmem : ext.getD (x - l.length) default ∈ ext := by
        rw [List.getD_eq_getElem _ _ hx2]
        exact List.getElem_mem _
      exact hext _ hmem
    · rw [List.getD_eq_default _ _ (by omega)]
      intro h
      cases h

theorem pseudoOption_false {v : Selection} (hv : v.pseudo = false) :
    ∀ (b : Bool), (⟨v, b⟩ : OptionR).selectionData.pseudo = true →
      (⟨v, b⟩ : OptionR).selectionData.id = selectAllOptionId := by
  intro b h
  rw [hv] at h
  cases h

theorem inv_ngOnChanges {s : State} (hs : Inv s) (currentValue : Option (List Selection))
    (hreal : ∀ vals, currentValue = some vals → ∀ v ∈ vals, v.pseudo = false) :
    Inv (ngOnChanges s currentValue) := by
  cases currentValue with
  | none =>
      rw [ngOnChanges_none]
      exact ⟨hs.addrs_sel, by simp, hs.pseudo_id, by simp, hs.sel_tail⟩
  | some vals =>
      have hv : ∀ v ∈ vals, v.pseudo = false := hreal vals rfl
      obtain ⟨addrs, h1, h2, h3, h4, h5, h6, h7⟩ := ngOnChanges_struct s vals
      set s' := ngOnChanges s (some vals) with hs'
      have harena_len : s.arena.length ≤ s'.arena.length := by
        rw [h3]
        simp
      have hderef_old : ∀ x, x < s.arena.length → deref s' x = deref s x := by
        intro x hx
        unfold deref
        rw [h3, List.append_assoc, List.getD_append _ _ _ _ hx]
      refine ⟨?_, ?_, ?_, ?_, ?_⟩
      · intro a ha
        rw [h5] at ha
        exact Nat.lt_of_lt_of_le (hs.addrs_sel a ha) harena_len
      · intro a ha
        rw [h1] at ha
        exact h4 a ha
      · intro x
        unfold deref
        rw [h3, List.append_assoc]
        refine getD_append_pseudo_id (fun y => hs.pseudo_id y) ?_ x
        intro o ho
        rcases List.mem_append.1 ho with ho | ho
        · by_cases hgt : vals.length > 1
          · rw [if_pos hgt] at ho
            rcases List.mem_singleton.1 ho with rfl
            intro _
            rfl
          · rw [if_neg hgt] at ho
            simp at ho
        · obtain ⟨v, hv1, rfl⟩ := List.mem_map.1 ho
          exact pseudoOption_false (hv v hv1) false
      · intro a ha
        rw [h1] at ha
        have hmem : deref s' a ∈ (addrs.map (deref s')).tail := by
          rw [tail_map]
          exact List.mem_map_of_mem _ ha
        rw [h2] at hmem
        by_cases hgt : vals.length > 1
        · rw [if_pos hgt] at hmem
          simp only [List.singleton_append, List.tail_cons] at hmem
          obtain ⟨v, hv1, heq⟩ := List.mem_map.1 hmem
          rw [← heq]
          exact hv v hv1
        · rw [if_neg hgt] at hmem
          simp only [List.nil_append, tail_map] at hmem
          obtain ⟨v, hv1, heq⟩ := List.mem_map.1 hmem
          rw [← heq]
          exact hv v (List.mem_of_mem_tail hv1)
      · intro a ha
        rw [h5] at ha
        rw [hderef_old a (hs.addrs_sel a (List.mem_of_mem_tail ha))]
        exact hs.sel_tail a ha

theorem selectAll_check_struct (s : State) (a : Nat)
    (hid : ((deref s a).selectionData.id == selectAllOptionId) = true)
    (hsel : (deref (setSelected s a (!(deref s a).selected)) a).selected = true)
    (hv : ∀ x ∈ s.selectionValues, x < s.arena.length) :
    ∃ addrs : List Nat,
      (onCheckboxChange s a).selectedOptions = addrs
      ∧ addrs.map (deref (onCheckboxChange s a))
          = s.selectionValues.map (fun x => (⟨(deref s x).selectionData, true⟩ : OptionR))
      ∧ (∀ c ∈ addrs, c < (onCheckboxChange s a).arena.length)
      ∧ (onCheckboxChange s a).arena
          = (setSelected s a (!(deref s a).selected)).arena
            ++ s.selectionValues.map
                (fun x => (⟨(deref s x).selectionData, true⟩ : OptionR))
      ∧ (onCheckboxChange s a).selectionValues = s.selectionValues
      ∧ (onCheckboxChange s a).checkboxes
          = (match s.checkboxes with
             | [] => ([] : List Checkbox)
             | c0 :: rest =>
                (⟨true, c0.disabled⟩ : Checkbox)
                  :: rest.map (fun _ => (⟨true, true⟩ : Checkbox)))
      ∧ (onCheckboxChange s a).hasUpdatedSelection = true
      ∧ (∀ x, x < s.arena.length → (deref (onCheckboxChange s a) x).selectionData
            = (deref s x).selectionData) := by
  have heq : onCheckboxChange s a =
      { disableAllSelectedOptions
          (setCheckStatusForAllSelectedOptions
            (appendAllSelectedOptions
              (removeAllSelectedOptions (setSelected s a (!(deref s a).selected))) true) true)
          true
        with hasUpdatedSelection := true } := by
    simp only [onCheckboxChange]
    rw [if_pos hid, if_pos hsel]
  set s1 := setSelected s a (!(deref s a).selected) with hs1
  set s2 := removeAllSelectedOptions s1 with hs2
  have hs2vals : s2.selectionValues = s.selectionValues := rfl
  have hs2arena : s2.arena = s1.arena := rfl
  have hs2alen : s2.arena.length = s.arena.length := (setSelected_fields s a _).2.2.2.2
  have h1len : s1.arena.length = s.arena.length := by
    rw [hs1]
    exact (setSelected_fields s a _).2.2.2.2
  have hv2 : ∀ x ∈ s2.selectionValues, x < s2.arena.length := by
    intro x hx
    rw [hs2vals] at hx
    rw [hs2arena, h1len]
    exact hv x hx
  obtain ⟨addrs, h1, h2, h3, h4, h5, h6, h7⟩ :=
    appendCopies_struct true s2.selectionValues s2 hv2
  have hmapsd : s2.selectionValues.map
        (fun x => (⟨(deref s2 x).selectionData, true⟩ : OptionR))
      = s.selectionValues.map (fun x => (⟨(deref s x).selectionData, true⟩ : OptionR)) := by
    rw [hs2vals]
    refine List.map_congr_left fun x _ => ?_
    have : (deref s2 x).selectionData = (deref s x).selectionData :=
      deref_setSelected_selectionData s a _ x
    rw [this]
  have hup : appendAllSelectedOptions s2 true = appendCopies true s2 s2.selectionValues := rfl
  refine ⟨addrs, ?_, ?_, ?_, ?_, ?_, ?_, ?_, ?_⟩
  · rw [heq]
    show (appendCopies true s2 s2.selectionValues).selectedOptions = addrs
    rw [h1]
    rfl
  · have hsel_eq : (onCheckboxChange s a).selectedOptions = addrs := by
      rw [heq]
      show (appendCopies true s2 s2.selectionValues).selectedOptions = addrs
      rw [h1]
      rfl
    have hder : ∀ c, deref (onCheckboxChange s a) c = deref (appendCopies true s2 s2.selectionValues) c := by
      intro c
      rw [heq]
      rfl
    calc addrs.map (deref (onCheckboxChange s a))
        = addrs.map (deref (appendCopies true s2 s2.selectionValues)) :=
          List.map_congr_left fun c _ => hder c
      _ = s2.selectionValues.map (fun x => (⟨(deref s2 x).selectionData, true⟩ : OptionR)) := h3
      _ = s.selectionValues.map (fun x => (⟨(deref s x).selectionData, true⟩ : OptionR)) := hmapsd
  · intro c hc
    rw [heq]
    show c < (appendCopies true s2 s2.selectionValues).arena.length
    exact h4 c hc
  · rw [heq]
    show (appendCopies true s2 s2.selectionValues).arena = s1.arena ++ _
    rw [h2, hmapsd, hs2arena]
  · rw [heq]
    show (appendCopies true s2 s2.selectionValues).selectionValues = s.selectionValues
    rw [h5]
    exact hs2vals
  · rw [heq]
    show (disableAllSelectedOptions (setCheckStatusForAllSelectedOptions
        (appendCopies true s2 s2.selectionValues) true) true).checkboxes = _
    unfold disableAllSelectedOptions setCheckStatusForAllSelectedOptions
    simp only [h6]
    have hcb : s2.checkboxes = s.checkboxes := rfl
    rw [hcb]
    cases s.checkboxes with
    | nil => rfl
    | cons c0 rest =>
        simp only [List.map_cons, List.map_map]
        rfl
  · rw [heq]
  · intro x hxlen
    rw [heq]
    show (deref (appendCopies true s2 s2.selectionValues) x).selectionData = _
    have hx : x < s2.arena.length := by
      rw [hs2arena, h1len]
      exact hxlen
    unfold deref
    rw [h2, List.getD_append _ _ _ _ hx]
    exact deref_setSelected_selectionData s a _ x

theorem selectAll_uncheck_struct (s : State) (a : Nat)
    (hid : ((deref s a).selectionData.id == selectAllOptionId) = true)
    (hsel : ¬ ((deref (setSelected s a (!(deref s a).selected)) a).selected = true)) :
    (onCheckboxChange s a).selectedOptions = []
    ∧ (onCheckboxChange s a).selectionValues = s.selectionValues
    ∧ (∀ x ∈ s.selectionValues, (deref (onCheckboxChange s a) x).selected = false)
    ∧ (∀ x, (deref (onCheckboxChange s a) x).selectionData = (deref s x).selectionData)
    ∧ (onCheckboxChange s a).arena.length = s.arena.length
    ∧ (onCheckboxChange s a).checkboxes
        = (match s.checkboxes with
           | [] => ([] : List Checkbox)
           | c0 :: rest =>
              (⟨false, c0.disabled⟩ : Checkbox)
                :: rest.map (fun _ => (⟨false, false⟩ : Checkbox)))
    ∧ (onCheckboxChange s a).hasUpdatedSelection = true := by
  have heq : onCheckboxChange s a =
      { setSelected
          (removeAndUncheckAllSelectedOptions
            (disableAllSelectedOptions (setSelected s a (!(deref s a).selected)) false))
          a false
        with hasUpdatedSelection := true } := by
    simp only [onCheckboxChange]
    rw [if_pos hid, if_neg hsel]
  set s1 := setSelected s a (!(deref s a).selected) with hs1
  set s2 := disableAllSelectedOptions s1 false with hs2
  have h1len : s1.arena.length = s.arena.length := by
    rw [hs1]
    exact (setSelected_fields s a _).2.2.2.2
  have hs2arena : s2.arena = s1.arena := by
    rw [hs2]
    unfold disableAllSelectedOptions
    rfl
  have hs2vals : s2.selectionValues = s.selectionValues := rfl
  obtain ⟨r1, r2, r3, r4, r5, r6, r7⟩ := removeAndUncheck_struct s2
  refine ⟨?_, ?_, ?_, ?_, ?_, ?_, ?_⟩
  · rw [heq]
    show (setSelected (removeAndUncheckAllSelectedOptions s2) a false).selectedOptions = []
    rw [(setSelected_fields _ a false).2.1, r1]
  · rw [heq]
    show (setSelected (removeAndUncheckAllSelectedOptions s2) a false).selectionValues
        = s.selectionValues
    rw [(setSelected_fields _ a false).1, r2]
    exact hs2vals
  · intro x hx
    rw [heq]
    show (deref (setSelected (removeAndUncheckAllSelectedOptions s2) a false) x).selected
        = false
    refine deref_setSelected_false_selected _ a x (Or.inl ?_)
    refine r7 x ?_
    rw [hs2vals]
    exact hx
  · intro x
    rw [heq]
    show (deref (setSelected (removeAndUncheckAllSelectedOptions s2) a false) x).selectionData
        = (deref s x).selectionData
    rw [deref_setSelected_selectionData, r6 x]
    have : (deref s2 x).selectionData = (deref s1 x).selectionData := by
      unfold deref
      rw [hs2arena]
    rw [this, hs1]
    exact deref_setSelected_selectionData s a _ x
  · rw [heq]
    show (setSelected (removeAndUncheckAllSelectedOptions s2) a false).arena.length
        = s.arena.length
    rw [(setSelected_fields _ a false).2.2.2.2, r5]
    show s2.arena.length = s.arena.length
    rw [hs2arena, h1len]
  · rw [heq]
    show (setSelected (removeAndUncheckAllSelectedOptions s2) a false).checkboxes = _
    rw [(setSelected_fields _ a false).2.2.1, r3]
    have hs2cb : s2.checkboxes
        = (match s.checkboxes with
           | [] => ([] : List Checkbox)
           | c0 :: rest => c0 :: rest.map (fun cb => { cb with disabled := false })) := by
      rw [hs2]
      unfold disableAllSelectedOptions
      rfl
    rw [hs2cb]
    cases s.checkboxes with
    | nil => rfl
    | cons c0 rest =>
        simp only [List.map_cons, List.map_map]
        rfl
  · rw [heq]

theorem guard_struct (s : State) (a : Nat)
    (hid : ¬ (((deref s a).selectionData.id == selectAllOptionId) = true))
    (hguard : ((getAllSelectedOptions (setSelected s a (!(deref s a).selected))).length
        == (setSelected s a (!(deref s a).selected)).selectionValues.length) = true) :
    (onCheckboxChange s a).selectedOptions = s.selectedOptions
    ∧ (onCheckboxChange s a).selectionValues = s.selectionValues
    ∧ (deref (onCheckboxChange s a) a).selected = false
    ∧ (∀ x, (deref (onCheckboxChange s a) x).selectionData = (deref s x).selectionData)
    ∧ (onCheckboxChange s a).checkboxes = s.checkboxes
    ∧ (onCheckboxChange s a).hasUpdatedSelection = s.hasUpdatedSelection := by
  have heq : onCheckboxChange s a
      = setSelected (setSelected s a (!(deref s a).selected)) a false := by
    simp only [onCheckboxChange]
    rw [if_neg hid, if_pos hguard]
  rw [heq]
  refine ⟨(setSelected_fields _ a false).2.1.trans (setSelected_fields s a _).2.1,
    (setSelected_fields _ a false).1.trans (setSelected_fields s a _).1,
    deref_setSelected_false_selected _ a a (Or.inr rfl),
    fun x => (deref_setSelected_selectionData _ a false x).trans
      (deref_setSelected_selectionData s a _ x),
    (setSelected_fields _ a false).2.2.1.trans (setSelected_fields s a _).2.2.1,
    (setSelected_fields _ a false).2.2.2.1.trans (setSelected_fields s a _).2.2.2.1⟩

theorem inv_transport {s s' : State} (hs : Inv s) (ha : s'.arena = s.arena)
    (hv : s'.selectionValues = s.selectionValues)
    (hso : s'.selectedOptions = s.selectedOptions) : Inv s' := by
  have hd : ∀ x, deref s' x = deref s x := by
    intro x
    unfold deref
    rw [ha]
  refine ⟨?_, ?_, ?_, ?_, ?_⟩
  · intro x hx
    rw [hso] at hx
    rw [ha]
    exact hs.addrs_sel x hx
  · intro x hx
    rw [hv] at hx
    rw [ha]
    exact hs.addrs_vals x hx
  · intro x
    rw [hd x]
    exact hs.pseudo_id x
  · intro x hx
    rw [hv] at hx
    rw [hd x]
    exact hs.vals_tail x hx
  · intro x hx
    rw [hso] at hx
    rw [hd x]
    exact hs.sel_tail x hx

theorem inv_onCheckboxChange {s : State} (hs : Inv s) (a : Nat) :
    Inv (onCheckboxChange s a) := by
  by_cases hid : (((deref s a).selectionData.id == selectAllOptionId) = true)
  · by_cases hsel : ((deref (setSelected s a (!(deref s a).selected)) a).selected = true)
    · obtain ⟨addrs, g1, g2, g3, g4, g5, g6, g7, g8⟩ :=
        selectAll_check_struct s a hid hsel hs.addrs_vals
      have h1len : (setSelected s a (!(deref s a).selected)).arena.length
          = s.arena.length := (setSelected_fields s a _).2.2.2.2
      refine ⟨?_, ?_, ?_, ?_, ?_⟩
      · intro x hx
        rw [g1] at hx
        exact g3 x hx
      · intro x hx
        rw [g5] at hx
        have hxlen := hs.addrs_vals x hx
        rw [g4]
        simp only [List.length_append]
        omega
      · intro x
        unfold deref
        rw [g4]
        refine getD_append_pseudo_id ?_ ?_ x
        · intro y
          have hyd : (setSelected s a (!(deref s a).selected)).arena.getD y default
              = deref (setSelected s a (!(deref s a).selected)) y := rfl
          rw [hyd, deref_setSelected_selectionData]
          exact hs.pseudo_id y
        · intro o ho
          obtain ⟨y, hy, rfl⟩ := List.mem_map.1 ho
          exact fun hp => hs.pseudo_id y hp
      · intro x hx
        rw [g5] at hx
        have hxr : x < s.arena.length := hs.addrs_vals x (List.mem_of_mem_tail hx)
        rw [g8 x hxr]
        exact hs.vals_tail x hx
      · intro x hx
        rw [g1] at hx
        have hmem : deref (onCheckboxChange s a) x
            ∈ (addrs.map (deref (onCheckboxChange s a))).tail := by
          rw [tail_map]
          exact List.mem_map_of_mem _ hx
        rw [g2, tail_map] at hmem
        obtain ⟨y, hy, heq2⟩ := List.mem_map.1 hmem
        rw [← heq2]
        exact hs.vals_tail y hy
    · obtain ⟨u1, u2, u3, u4, u5, u6, u7⟩ := selectAll_uncheck_struct s a hid hsel
      refine ⟨?_, ?_, ?_, ?_, ?_⟩
      · intro x hx
        rw [u1] at hx
        simp at hx
      · intro x hx
        rw [u2] at hx
        rw [u5]
        exact hs.addrs_vals x hx
      · intro x
        rw [u4 x]
        exact hs.pseudo_id x
      · intro x hx
        rw [u2] at hx
        rw [u4 x]
        exact hs.vals_tail x hx
      · intro x hx
        rw [u1] at hx
        simp at hx
  · by_cases hguard : (((getAllSelectedOptions
        (setSelected s a (!(deref s a).selected))).length
          == (setSelected s a (!(deref s a).selected)).selectionValues.length) = true)
    · obtain ⟨q1, q2, q3, q4, q5, q6⟩ := guard_struct s a hid hguard
      have heq : onCheckboxChange s a
          = setSelected (setSelected s a (!(deref s a).selected)) a false := by
        simp only [onCheckboxChange]
        rw [if_neg hid, if_pos hguard]
      have hlen : (onCheckboxChange s a).arena.length = s.arena.length := by
        rw [heq, (setSelected_fields _ a false).2.2.2.2]
        exact (setSelected_fields s a _).2.2.2.2
      refine ⟨?_, ?_, ?_, ?_, ?_⟩
      · intro x hx
        rw [q1] at hx
        rw [hlen]
        exact hs.addrs_sel x hx
      · intro x hx
        rw [q2] at hx
        rw [hlen]
        exact hs.addrs_vals x hx
      · intro x
        rw [q4 x]
        exact hs.pseudo_id x
      · intro x hx
        rw [q2] at hx
        rw [q4 x]
        exact hs.vals_tail x hx
      · intro x hx
        rw [q1] at hx
        rw [q4 x]
        exact hs.sel_tail x hx
    · by_cases hselb : ((deref (setSelected s a (!(deref s a).selected)) a).selected = true)
      · have heq : onCheckboxChange s a
            = { appendSelectedOption (setSelected s a (!(deref s a).selected)) a
                with hasUpdatedSelection := true } := by
          simp only [onCheckboxChange]
          rw [if_neg hid, if_neg hguard, if_pos hselb]
        set s1 := setSelected s a (!(deref s a).selected) with hs1
        have h1len : s1.arena.length = s.arena.length := by
          rw [hs1]
          exact (setSelected_fields s a _).2.2.2.2
        have hfields : (onCheckboxChange s a).selectedOptions = s.selectedOptions ++ [a]
            ∧ (onCheckboxChange s a).selectionValues = s.selectionValues
            ∧ (onCheckboxChange s a).arena = s1.arena := by
          rw [heq]
          exact ⟨rfl, rfl, rfl⟩
        obtain ⟨f1, f2, f3⟩ := hfields
        have hderef : ∀ x, deref (onCheckboxChange s a) x = deref s1 x := by
          intro x
          unfold deref
          rw [f3]
        have hain : a < s.arena.length := by
          have := selected_true_in_range hselb
          omega
        have hsd : ∀ x, (deref s1 x).selectionData = (deref s x).selectionData := by
          intro x
          rw [hs1]
          exact deref_setSelected_selectionData s a _ x
        refine ⟨?_, ?_, ?_, ?_, ?_⟩
        · intro x hx
          rw [f1] at hx
          rw [f3, h1len]
          rcases List.mem_append.1 hx with hx | hx
          · exact hs.addrs_sel x hx
          · rcases List.mem_singleton.1 hx with rfl
            exact hain
        · intro x hx
          rw [f2] at hx
          rw [f3, h1len]
          exact hs.addrs_vals x hx
        · intro x
          rw [hderef x, hsd x]
          exact hs.pseudo_id x
        · intro x hx
          rw [f2] at hx
          rw [hderef x, hsd x]
          exact hs.vals_tail x hx
        · intro x hx
          rw [f1] at hx
          rw [hderef x, hsd x]
          rcases mem_tail_append_singleton hx with hx | rfl
          · exact hs.sel_tail x hx
          · by_contra hp
            have hp2 : (deref s x).selectionData.pseudo = true := by
              revert hp
              cases (deref s x).selectionData.pseudo <;> simp
            have := hs.pseudo_id x hp2
            rw [this] at hid
            simp at hid
      · have heq : onCheckboxChange s a
            = { removeSelectedOption (setSelected s a (!(deref s a).selected))
                  (getSelectedOptionIndex (setSelected s a (!(deref s a).selected)) a)
                with hasUpdatedSelection := true } := by
          simp only [onCheckboxChange]
          rw [if_neg hid, if_neg hguard, if_neg hselb]
        set s1 := setSelected s a (!(deref s a).selected) with hs1
        have h1len : s1.arena.length = s.arena.length := by
          rw [hs1]
          exact (setSelected_fields s a _).2.2.2.2
        have hfields : (onCheckboxChange s a).selectedOptions
              = spliceOne s.selectedOptions (getSelectedOptionIndex s1 a)
            ∧ (onCheckboxChange s a).selectionValues = s.selectionValues
            ∧ (onCheckboxChange s a).arena = s1.arena := by
          rw [heq]
          exact ⟨rfl, rfl, rfl⟩
        obtain ⟨f1, f2, f3⟩ := hfields
        have hderef : ∀ x, deref (onCheckboxChange s a) x = deref s1 x := by
          intro x
          unfold deref
          rw [f3]
        have hsd : ∀ x, (deref s1 x).selectionData = (deref s x).selectionData := by
          intro x
          rw [hs1]
          exact deref_setSelected_selectionData s a _ x
        refine ⟨?_, ?_, ?_, ?_, ?_⟩
        · intro x hx
          rw [f1] at hx
          rw [f3, h1len]
          exact hs.addrs_sel x (mem_spliceOne hx)
        · intro x hx
          rw [f2] at hx
          rw [f3, h1len]
          exact hs.addrs_vals x hx
        · intro x
          rw [hderef x, hsd x]
          exact hs.pseudo_id x
        · intro x hx
          rw [f2] at hx
          rw [hderef x, hsd x]
          exact hs.vals_tail x hx
        · intro x hx
          rw [f1] at hx
          rw [hderef x, hsd x]
          exact hs.sel_tail x (mem_tail_spliceOne hx)

theorem inv_onClosed {s : State} (hs : Inv s) : Inv (onClosed s).1 := by
  unfold onClosed
  by_cases hc : ((getAllSelectedOptions s).length > 0 ∧ s.hasUpdatedSelection = true)
  · rw [if_pos hc]
    exact inv_transport hs rfl rfl rfl
  · rw [if_neg hc]
    exact hs

theorem inv_onStatusChange {s : State} (hs : Inv s) (hasErrors : Bool) :
    Inv (onStatusChange s hasErrors) := by
  unfold onStatusChange
  by_cases hc : (s.selectedOptions.length > 0 ∧ hasErrors = true)
  · rw [if_pos hc]
    set s2 := disableAllSelectedOptions s false with hs2
    have hs2arena : s2.arena = s.arena := by
      rw [hs2]
      unfold disableAllSelectedOptions
      rfl
    have hs2vals : s2.selectionValues = s.selectionValues := rfl
    obtain ⟨r1, r2, r3, r4, r5, r6, r7⟩ := removeAndUncheck_struct s2
    have hsd : ∀ x, (deref (removeAndUncheckAllSelectedOptions s2) x).selectionData
        = (deref s x).selectionData := by
      intro x
      rw [r6 x]
      unfold deref
      rw [hs2arena]
    have hlen : (removeAndUncheckAllSelectedOptions s2).arena.length = s.arena.length := by
      rw [r5]
      show s2.arena.length = s.arena.length
      rw [hs2arena]
    refine ⟨?_, ?_, ?_, ?_, ?_⟩
    · intro x hx
      rw [r1] at hx
      simp at hx
    · intro x hx
      rw [r2, hs2vals] at hx
      rw [hlen]
      exact hs.addrs_vals x hx
    · intro x
      rw [hsd x]
      exact hs.pseudo_id x
    · intro x hx
      rw [r2, hs2vals] at hx
      rw [hsd x]
      exact hs.vals_tail x hx
    · intro x hx
      rw [r1] at hx
      simp at hx
  · rw [if_neg hc]
    exact hs

theorem inv_initState (checkboxes : List Checkbox) : Inv (initState checkboxes) := by
  refine ⟨?_, ?_, ?_, ?_, ?_⟩
  · intro x hx
    simp [initState] at hx
  · intro x hx
    simp [initState] at hx
  · intro x hp
    have hd : deref (initState checkboxes) x = default :=
      deref_out_of_range (by simp [initState])
    rw [hd] at hp
    cases hp
  · intro x hx
    simp [initState] at hx
  · intro x hx
    simp [initState] at hx

theorem deref_setSelected_self {s : State} {a : Nat} (h : a < s.arena.length) (b : Bool) :
    deref (setSelected s a b) a = { deref s a with selected := b } := by
  unfold deref setSelected
  simp [List.getD, List.getElem?_set_self, h]

theorem inv_reachable {s : State} (h : Reachable s) : Inv s := by
  induction h with
  | init checkboxes => exact inv_initState checkboxes
  | changes h currentValue hreal ih => exact inv_ngOnChanges ih currentValue hreal
  | checkbox h a ih => exact inv_onCheckboxChange ih a
  | closed h ih => exact inv_onClosed ih
  | status h hasErrors ih => exact inv_onStatusChange ih hasErrors

end MultiSelect

/-- C4: the multi-select's `Select All` behaviour.  (1) `ngOnChanges`
prepends the `Select All` pseudo-option exactly when the new input value has
more than one element.  (2) Checking `Select All` replaces the selected set
with (a copy of) every option, all selected, checks every checkbox and
disables every checkbox except the first.  (3) Unchecking it removes and
unselects every selected option, unchecks every checkbox and re-enables
every checkbox except the first (whose enablement is never touched).
(4) When every option is already selected, clicking an individual option
leaves the selected set and everything else unchanged, with that option
unselected. -/
theorem C4_multi_select_select_all :
    (∀ (s : MultiSelect.State) (vals : List MultiSelect.Selection),
      ((MultiSelect.ngOnChanges s (some vals)).selectionValues.map
          (fun a => (MultiSelect.deref (MultiSelect.ngOnChanges s (some vals)) a).selectionData))
        = (if vals.length > 1
            then [(⟨MultiSelect.selectAllOptionId, MultiSelect.selectAllOptionName, true⟩
                    : MultiSelect.Selection)]
            else []) ++ vals
      ∧ (MultiSelect.ngOnChanges s none).selectionValues = [])
    ∧ (∀ (s : MultiSelect.State) (a : Nat),
        (MultiSelect.deref s a).selectionData.id = MultiSelect.selectAllOptionId →
        (MultiSelect.deref s a).selected = false →
        a < s.arena.length →
        (∀ x ∈ s.selectionValues, x < s.arena.length) →
        ((MultiSelect.getAllSelectedOptions (MultiSelect.onCheckboxChange s a)).map
            (fun o => o.selectionData)
          = s.selectionValues.map (fun x => (MultiSelect.deref s x).selectionData))
        ∧ (∀ o ∈ MultiSelect.getAllSelectedOptions (MultiSelect.onCheckboxChange s a),
            o.selected = true)
        ∧ (MultiSelect.onCheckboxChange s a).checkboxes
            = (match s.checkboxes with
               | [] => ([] : List MultiSelect.Checkbox)
               | c0 :: rest =>
                  (⟨true, c0.disabled⟩ : MultiSelect.Checkbox)
                    :: rest.map (fun _ => (⟨true, true⟩ : MultiSelect.Checkbox)))
        ∧ (MultiSelect.onCheckboxChange s a).hasUpdatedSelection = true)
    ∧ (∀ (s : MultiSelect.State) (a : Nat),
        (MultiSelect.deref s a).selectionData.id = MultiSelect.selectAllOptionId →
        (MultiSelect.deref s a).selected = true →
        (MultiSelect.onCheckboxChange s a).selectedOptions = []
        ∧ (∀ x ∈ s.selectionValues,
            (MultiSelect.deref (MultiSelect.onCheckboxChange s a) x).selected = false)
        ∧ (MultiSelect.onCheckboxChange s a).checkboxes
            = (match s.checkboxes with
               | [] => ([] : List MultiSelect.Checkbox)
               | c0 :: rest =>
                  (⟨false, c0.disabled⟩ : MultiSelect.Checkbox)
                    :: rest.map (fun _ => (⟨false, false⟩ : MultiSelect.Checkbox)))
        ∧ (MultiSelect.onCheckboxChange s a).hasUpdatedSelection = true)
    ∧ (∀ (s : MultiSelect.State) (a : Nat),
        (MultiSelect.deref s a).selectionData.id ≠ MultiSelect.selectAllOptionId →
        (MultiSelect.getAllSelectedOptions s).length = s.selectionValues.length →
        (MultiSelect.onCheckboxChange s a).selectedOptions = s.selectedOptions
        ∧ (MultiSelect.deref (MultiSelect.onCheckboxChange s a) a).selected = false
        ∧ (∀ x, (MultiSelect.deref (MultiSelect.onCheckboxChange s a) x).selectionData
            = (MultiSelect.deref s x).selectionData)
        ∧ (MultiSelect.onCheckboxChange s a).checkboxes = s.checkboxes
        ∧ (MultiSelect.onCheckboxChange s a).hasUpdatedSelection
            = s.hasUpdatedSelection) := by
  refine ⟨?_, ?_, ?_, ?_⟩
  · intro s vals
    obtain ⟨addrs, h1, h2, h3, h4, h5, h6, h7⟩ := MultiSelect.ngOnChanges_struct s vals
    refine ⟨?_, (MultiSelect.ngOnChanges_none s) ▸ rfl⟩
    rw [h1]
    have hmm : addrs.map
        (fun a => (MultiSelect.deref (MultiSelect.ngOnChanges s (some vals)) a).selectionData)
        = (addrs.map (MultiSelect.deref (MultiSelect.ngOnChanges s (some vals)))).map
            (fun o => o.selectionData) := by
      rw [List.map_map]
      rfl
    rw [hmm, h2]
    have hident : ((fun (o : MultiSelect.OptionR) => o.selectionData)
        ∘ fun v => ({ selectionData := v, selected := false } : MultiSelect.OptionR))
          = id := rfl
    by_cases hlen : vals.length > 1
    · rw [if_pos hlen, if_pos hlen]
      simp only [List.map_append, List.map_map, hident, List.map_id, List.map_cons,
        List.map_nil]
      rfl
    · rw [if_neg hlen, if_neg hlen]
      simp only [List.map_append, List.map_map, hident, List.map_id, List.map_nil,
        List.nil_append]
  · intro s a hid hsel hin hv
    have hidb : ((MultiSelect.deref s a).selectionData.id
        == MultiSelect.selectAllOptionId) = true := by
      simp [hid]
    have hselb : (MultiSelect.deref
        (MultiSelect.setSelected s a (!(MultiSelect.deref s a).selected)) a).selected
          = true := by
      rw [MultiSelect.deref_setSelected_self hin]
      rw [hsel]
      rfl
    obtain ⟨addrs, g1, g2, g3, g4, g5, g6, g7, g8⟩ :=
      MultiSelect.selectAll_check_struct s a hidb hselb hv
    refine ⟨?_, ?_, g6, g7⟩
    · unfold MultiSelect.getAllSelectedOptions
      rw [g1, g2, List.map_map]
      simp [Function.comp]
    · intro o ho
      unfold MultiSelect.getAllSelectedOptions at ho
      rw [g1, g2] at ho
      obtain ⟨x, hx, rfl⟩ := List.mem_map.1 ho
      rfl
  · intro s a hid hsel
    have hidb : ((MultiSelect.deref s a).selectionData.id
        == MultiSelect.selectAllOptionId) = true := by
      simp [hid]
    have hin : a < s.arena.length := MultiSelect.selected_true_in_range hsel
    have hselb : ¬ ((MultiSelect.deref
        (MultiSelect.setSelected s a (!(MultiSelect.deref s a).selected)) a).selected
          = true) := by
      rw [MultiSelect.deref_setSelected_self hin]
      rw [hsel]
      simp
    obtain ⟨u1, u2, u3, u4, u5, u6, u7⟩ := MultiSelect.selectAll_uncheck_struct s a hidb hselb
    exact ⟨u1, u3, u6, u7⟩
  · intro s a hid hlen
    have hidb : ¬ (((MultiSelect.deref s a).selectionData.id
        == MultiSelect.selectAllOptionId) = true) := by
      simp [hid]
    have hguard : (((MultiSelect.getAllSelectedOptions
        (MultiSelect.setSelected s a (!(MultiSelect.deref s a).selected))).length
          == (MultiSelect.setSelected s a
              (!(MultiSelect.deref s a).selected)).selectionValues.length) = true) := by
      have e1 : (MultiSelect.getAllSelectedOptions
          (MultiSelect.setSelected s a (!(MultiSelect.deref s a).selected))).length
            = (MultiSelect.getAllSelectedOptions s).length := by
        unfold MultiSelect.getAllSelectedOptions
        simp [MultiSelect.setSelected]
      have e2 : (MultiSelect.setSelected s a
          (!(MultiSelect.deref s a).selected)).selectionValues.length
            = s.selectionValues.length := rfl
      rw [e1, e2, hlen]
      simp
    obtain ⟨q1, q2, q3, q4, q5, q6⟩ := MultiSelect.guard_struct s a hidb hguard
    exact ⟨q1, q3, q4, q5, q6⟩

/-- C9: the multi-select's selection event.  On every state the component
can reach, closing the panel emits if and only if at least one option is
selected and the selection changed since the last emission; the emitted
list never contains the `Select All` pseudo-option; and
`hasUpdatedSelection` is reset after an emission. -/
theorem C9_onClosed_emission (s : MultiSelect.State) (h : MultiSelect.Reachable s) :
    ((MultiSelect.onClosed s).2.isSome = true ↔
      ((MultiSelect.getAllSelectedOptions s).length > 0 ∧ s.hasUpdatedSelection = true))
    ∧ (∀ out, (MultiSelect.onClosed s).2 = some out → ∀ e ∈ out, e.pseudo = false)
    ∧ ((MultiSelect.onClosed s).2.isSome = true →
        (MultiSelect.onClosed s).1.hasUpdatedSelection = false) := by
  have hinv := MultiSelect.inv_reachable h
  by_cases hc : ((MultiSelect.getAllSelectedOptions s).length > 0
      ∧ s.hasUpdatedSelection = true)
  · have h2 : (MultiSelect.onClosed s).2
        = some (match (MultiSelect.getAllSelectedOptions s).map (fun o => o.selectionData)
                with
                | [] => []
                | x :: rest =>
                    if x.id == MultiSelect.selectAllOptionId then rest else x :: rest) := by
      unfold MultiSelect.onClosed
      rw [if_pos hc]
    have h1 : (MultiSelect.onClosed s).1 = { s with hasUpdatedSelection := false } := by
      unfold MultiSelect.onClosed
      rw [if_pos hc]
    refine ⟨?_, ?_, ?_⟩
    · rw [h2]
      exact iff_of_true rfl hc
    · intro out hout e he
      rw [h2] at hout
      injection hout with hout
      subst hout
      cases hso : s.selectedOptions with
      | nil =>
          rw [show (MultiSelect.getAllSelectedOptions s).map (fun o => o.selectionData)
              = [] by simp [MultiSelect.getAllSelectedOptions, hso]] at he
          simp at he
      | cons a0 rest =>
          have hmap : (MultiSelect.getAllSelectedOptions s).map (fun o => o.selectionData)
              = (MultiSelect.deref s a0).selectionData
                  :: rest.map (fun x => (MultiSelect.deref s x).selectionData) := by
            unfold MultiSelect.getAllSelectedOptions
            rw [hso]
            simp [List.map_map, Function.comp]
          rw [hmap] at he
          have he' : e ∈ (if ((MultiSelect.deref s a0).selectionData.id
                == MultiSelect.selectAllOptionId) = true
              then rest.map (fun x => (MultiSelect.deref s x).selectionData)
              else (MultiSelect.deref s a0).selectionData
                  :: rest.map (fun x => (MultiSelect.deref s x).selectionData)) := he
          have htail : ∀ x ∈ rest, (MultiSelect.deref s x).selectionData.pseudo = false := by
            intro x hx
            refine hinv.sel_tail x ?_
            rw [hso]
            exact hx
          by_cases hb : (((MultiSelect.deref s a0).selectionData.id
              == MultiSelect.selectAllOptionId) = true)
          · rw [if_pos hb] at he'
            obtain ⟨x, hx, rfl⟩ := List.mem_map.1 he'
            exact htail x hx
          · rw [if_neg hb] at he'
            rcases List.mem_cons.1 he' with rfl | he'
            · by_contra hp
              have hp2 : (MultiSelect.deref s a0).selectionData.pseudo = true := by
                revert hp
                cases (MultiSelect.deref s a0).selectionData.pseudo <;> simp
              have := hinv.pseudo_id a0 hp2
              rw [this] at hb
              simp at hb
            · obtain ⟨x, hx, rfl⟩ := List.mem_map.1 he'
              exact htail x hx
    · intro _
      rw [h1]
  · have h2 : (MultiSelect.onClosed s).2 = none := by
      unfold MultiSelect.onClosed
      rw [if_neg hc]
    have h1 : (MultiSelect.onClosed s).1 = s := by
      unfold MultiSelect.onClosed
      rw [if_neg hc]
    refine ⟨?_, ?_, ?_⟩
    · rw [h2]
      exact iff_of_false (by simp) hc
    · intro out hout
      rw [h2] at hout
      cases hout
    · intro hsome
      rw [h2] at hsome
      simp at hsome

theorem C9_onClosed_emission_witness :
    MultiSelect.Reachable c9WitnessState
    ∧ (((MultiSelect.onClosed c9WitnessState).2.isSome = true ↔
          ((MultiSelect.getAllSelectedOptions c9WitnessState).length > 0
            ∧ c9WitnessState.hasUpdatedSelection = true))
        ∧ (∀ out, (MultiSelect.onClosed c9WitnessState).2 = some out →
            ∀ e ∈ out, e.pseudo = false)
        ∧ ((MultiSelect.onClosed c9WitnessState).2.isSome = true →
            (MultiSelect.onClosed c9WitnessState).1.hasUpdatedSelection = false)) := by
  have hreach : MultiSelect.Reachable c9WitnessState := by
    refine MultiSelect.Reachable.checkbox ?_ 1
    refine MultiSelect.Reachable.changes (MultiSelect.Reachable.init []) _ ?_
    intro vals hv v hvm
    cases hv
    simp only [List.mem_cons, List.not_mem_nil, or_false] at hvm
    rcases hvm with rfl | rfl <;> rfl
  exact ⟨hreach, C9_onClosed_emission c9WitnessState hreach⟩

end KeywordPlatform
